import Mathlib

/-!
# Verification of the Touchless virtual-laboratory gesture pipeline

A shallow embedding, in Lean 4, of the hand-tracking / scene-interaction
pipeline of the "Touchless" virtual-laboratory web application:

* `src/components/HandTracker.tsx` — per-frame hand signal processing
  (pinch detection, finger counting, gesture classification, temporal
  smoothing) and the two-hand gesture aggregator;
* the chemistry-lab scene controller (`ChemistryLab`) — grab/release of
  vessels and the per-frame pouring/mixing update;
* the solar-system scene controller (`SolarSystem`) — gesture-driven
  target selection and the interpolated camera transition.

Numbers are modelled as real numbers (the source uses JavaScript
floating-point arithmetic; the properties verified here are threshold
comparisons and exact affine updates, stated over `ℝ`).  Geometry helpers
(`Vector3.lerp`, `distanceTo`, `Color.lerp`, `MathUtils.lerp`) follow the
documented componentwise semantics of the three.js library functions the
source calls.
-/

namespace VirtualLab

open scoped Classical

noncomputable section

/-! ## Geometry primitives (three.js semantics) -/

/-- A 3-component vector, as used for three.js `Vector3` and for the raw
MediaPipe landmarks (which carry `x`, `y`, `z` fields). -/
structure Vec3 where
  x : ℝ
  y : ℝ
  z : ℝ

/-- three.js `Vector3.distanceTo`: Euclidean distance. -/
def Vec3.distanceTo (a b : Vec3) : ℝ :=
  Real.sqrt ((a.x - b.x) ^ 2 + (a.y - b.y) ^ 2 + (a.z - b.z) ^ 2)

/-- `THREE.MathUtils.lerp(x, y, t) = x + (y - x) * t`. -/
def lerpR (x y t : ℝ) : ℝ := x + (y - x) * t

/-- three.js `Vector3.lerp(v, alpha)`: componentwise linear interpolation
from `a` toward `b`. -/
def Vec3.lerp (a b : Vec3) (alpha : ℝ) : Vec3 :=
  ⟨lerpR a.x b.x alpha, lerpR a.y b.y alpha, lerpR a.z b.z alpha⟩

/-- Componentwise difference (three.js `subVectors`). -/
def Vec3.sub (a b : Vec3) : Vec3 := ⟨a.x - b.x, a.y - b.y, a.z - b.z⟩

/-- Componentwise sum (three.js `addVectors`). -/
def Vec3.add (a b : Vec3) : Vec3 := ⟨a.x + b.x, a.y + b.y, a.z + b.z⟩

/-- Scalar multiple (three.js `multiplyScalar`). -/
def Vec3.scale (s : ℝ) (a : Vec3) : Vec3 := ⟨s * a.x, s * a.y, s * a.z⟩

/-- three.js `Vector3.length`. -/
def Vec3.length (a : Vec3) : ℝ := Real.sqrt (a.x ^ 2 + a.y ^ 2 + a.z ^ 2)

/-- three.js `Vector3.normalize` (`divideScalar(length)`). -/
def Vec3.normalize (a : Vec3) : Vec3 :=
  ⟨a.x / a.length, a.y / a.length, a.z / a.length⟩

/-- three.js `crossVectors`. -/
def Vec3.cross (a b : Vec3) : Vec3 :=
  ⟨a.y * b.z - a.z * b.y, a.z * b.x - a.x * b.z, a.x * b.y - a.y * b.x⟩

/-- Two-argument `Math.hypot(dx, dy)` as used by `countExtendedFingers`. -/
def hypot2 (dx dy : ℝ) : ℝ := Real.sqrt (dx ^ 2 + dy ^ 2)

/-- JavaScript `Math.atan2(y, x)` (standard piecewise definition). -/
def atan2 (y x : ℝ) : ℝ :=
  if 0 < x then Real.arctan (y / x)
  else if x < 0 then
    (if 0 ≤ y then Real.arctan (y / x) + Real.pi else Real.arctan (y / x) - Real.pi)
  else
    (if 0 < y then Real.pi / 2 else if y < 0 then -(Real.pi / 2) else 0)

/-- A quaternion, as three.js `Quaternion` (components `x y z w`). -/
structure Quat where
  x : ℝ
  y : ℝ
  z : ℝ
  w : ℝ

/-- Quaternion dot product. -/
def Quat.dot (p q : Quat) : ℝ := p.x * q.x + p.y * q.y + p.z * q.z + p.w * q.w

/-- Squared norm of a quaternion. -/
def Quat.normSq (p : Quat) : ℝ := p.x ^ 2 + p.y ^ 2 + p.z ^ 2 + p.w ^ 2

/-- Componentwise sum of quaternions. -/
def Quat.add (p q : Quat) : Quat := ⟨p.x + q.x, p.y + q.y, p.z + q.z, p.w + q.w⟩

/-- Scalar multiple of a quaternion. -/
def Quat.smul (s : ℝ) (p : Quat) : Quat := ⟨s * p.x, s * p.y, s * p.z, s * p.w⟩

/-- Modelled from the spec: `lerpQuaternion` in `HandTracker.tsx` delegates
to three.js `Quaternion.slerp`, which is external library code (not part of
this repository's sources).  Following the spec's description ("spherical
interpolation", output "on the great-circle arc"), it is modelled as the
standard spherical linear interpolation
`sin((1-t)·θ)/sin θ · p + sin(t·θ)/sin θ · q` where `θ = arccos ⟨p,q⟩` is
the angle between the two unit quaternions (returning `p` in the degenerate
`sin θ = 0` case, where three.js falls back to linear blending). -/
def Quat.slerp (p q : Quat) (t : ℝ) : Quat :=
  let θ := Real.arccos (p.dot q)
  if Real.sin θ = 0 then p
  else
    Quat.add (Quat.smul (Real.sin ((1 - t) * θ) / Real.sin θ) p)
      (Quat.smul (Real.sin (t * θ) / Real.sin θ) q)

/-- three.js `Quaternion.setFromRotationMatrix`, applied to the matrix with
columns `xa`, `ya`, `za` (as built by `Matrix4.makeBasis` in
`calculateRotation`).  Library code; transcribed from the standard
trace-based conversion three.js implements. -/
def quatFromBasis (xa ya za : Vec3) : Quat :=
  let m11 := xa.x; let m12 := ya.x; let m13 := za.x
  let m21 := xa.y; let m22 := ya.y; let m23 := za.y
  let m31 := xa.z; let m32 := ya.z; let m33 := za.z
  let trace := m11 + m22 + m33
  if 0 < trace then
    let s := 0.5 / Real.sqrt (trace + 1)
    ⟨(m32 - m23) * s, (m13 - m31) * s, (m21 - m12) * s, 0.25 / s⟩
  else if m22 < m11 ∧ m33 < m11 then
    let s := 2 * Real.sqrt (1 + m11 - m22 - m33)
    ⟨0.25 * s, (m12 + m21) / s, (m13 + m31) / s, (m32 - m23) / s⟩
  else if m33 < m22 then
    let s := 2 * Real.sqrt (1 + m22 - m11 - m33)
    ⟨(m12 + m21) / s, 0.25 * s, (m23 + m32) / s, (m13 - m31) / s⟩
  else
    let s := 2 * Real.sqrt (1 + m33 - m11 - m22)
    ⟨(m13 + m31) / s, (m23 + m32) / s, 0.25 * s, (m21 - m12) / s⟩

/-! ## Constants (`src/constants.ts`) -/

/-- `PINCH_THRESHOLD = 0.05`. -/
def PINCH_THRESHOLD : ℝ := 0.05

/-- `SMOOTHING_FACTOR = 0.15`. -/
def SMOOTHING_FACTOR : ℝ := 0.15

/-! ## Hand signal processor (`src/components/HandTracker.tsx`) -/

/-- MediaPipe handedness label. -/
inductive Handedness where
  | Left
  | Right
  deriving DecidableEq, Repr

/-- The discrete gesture label of a single hand (`HandData.gestureType` in
`src/types.ts`; the unused `'none'` value is included for fidelity). -/
inductive GestureType where
  | gnone
  | one_finger
  | two_fingers
  | three_fingers
  | four_fingers
  | open_palm
  | fist
  deriving DecidableEq, Repr

/-- `HandData` (`src/types.ts`): the processed per-hand record.  The raw
landmark array is modelled as a total function from indices to points
(the source indexes a 21-element array; `worldLandmarks` is always set to
the empty list by `processHand`). -/
structure HandData where
  landmarks : Nat → Vec3
  worldLandmarks : List Vec3
  handedness : Handedness
  isPinching : Prop
  pinchStrength : ℝ
  palmPosition : Vec3
  pinchPosition : Vec3
  rotation : Quat
  extendedFingers : Nat
  gestureType : GestureType

/-- `lerpVector3` in `HandTracker.tsx`: `new Vector3().copy(v1).lerp(v2, alpha)`. -/
def lerpVector3 (v1 v2 : Vec3) (alpha : ℝ) : Vec3 := v1.lerp v2 alpha

/-- `lerpQuaternion` in `HandTracker.tsx`:
`new Quaternion().copy(q1).slerp(q2, alpha)`. -/
def lerpQuaternion (q1 q2 : Quat) (alpha : ℝ) : Quat := q1.slerp q2 alpha

/-- `calculateRotation` (`HandTracker.tsx` lines 88–115): build an
orthonormal basis from the wrist (0), index-MCP (5) and pinky-MCP (17)
landmarks and convert it to a quaternion. -/
def calculateRotation (lm : Nat → Vec3) : Quat :=
  let wrist := lm 0
  let indexMCP := lm 5
  let pinkyMCP := lm 17
  let v1 := (indexMCP.sub wrist).normalize
  let v2 := (indexMCP.sub pinkyMCP).normalize
  let normal := (v1.cross v2).normalize
  let xAxis := (v1.cross normal).normalize
  quatFromBasis xAxis v1 normal

/-- The tip/PIP index pairs of the four non-thumb fingers
(`fingerTips = [8,12,16,20]`, `fingerPIPs = [6,10,14,18]`). -/
def fingerPairs : List (Nat × Nat) := [(8, 6), (12, 10), (16, 14), (20, 18)]

/-- `countExtendedFingers` (`HandTracker.tsx` lines 117–152): a non-thumb
finger counts as extended when its tip is farther (in 2D `Math.hypot` of
x/y) from the wrist than its PIP joint; the thumb counts when its tip is
more than `0.05` (2D) away from the index MCP. -/
def countExtendedFingers (lm : Nat → Vec3) : Nat :=
  let wrist := lm 0
  let count := fingerPairs.foldl
    (fun count pair =>
      let tip := lm pair.1
      let pip := lm pair.2
      let dTip := hypot2 (tip.x - wrist.x) (tip.y - wrist.y)
      let dPip := hypot2 (pip.x - wrist.x) (pip.y - wrist.y)
      if dPip < dTip then count + 1 else count)
    0
  let thumbTip := lm 4
  let indexMCP := lm 5
  let dThumb := hypot2 (thumbTip.x - indexMCP.x) (thumbTip.y - indexMCP.y)
  if 0.05 < dThumb then count + 1 else count

/-- `processHand` (`HandTracker.tsx` lines 154–198): pinch detection,
temporal smoothing against the previous frame's `HandData` (if any),
finger counting and gesture classification. -/
def processHand (lm : Nat → Vec3) (handed : Handedness) (lastHand : Option HandData) :
    HandData :=
  let thumbTip := lm 4
  let indexTip := lm 8
  let wrist := lm 0
  let pinchDist := thumbTip.distanceTo indexTip
  let isPinching := pinchDist < PINCH_THRESHOLD
  let pinchPos := Vec3.scale 0.5 (thumbTip.add indexTip)
  let rawRotation := calculateRotation lm
  let smoothedPinchPos :=
    match lastHand with
    | some lh => lerpVector3 lh.pinchPosition pinchPos SMOOTHING_FACTOR
    | none => pinchPos
  let smoothedPalmPos :=
    match lastHand with
    | some lh => lerpVector3 lh.palmPosition wrist SMOOTHING_FACTOR
    | none => wrist
  let smoothedRotation :=
    match lastHand with
    | some lh => lerpQuaternion lh.rotation rawRotation SMOOTHING_FACTOR
    | none => rawRotation
  let extendedCount := countExtendedFingers lm
  let gestureType :=
    if isPinching then GestureType.fist
    else if extendedCount = 1 then GestureType.one_finger
    else if extendedCount = 2 then GestureType.two_fingers
    else if extendedCount = 3 then GestureType.three_fingers
    else if extendedCount = 4 then GestureType.four_fingers
    else if extendedCount = 5 then GestureType.open_palm
    else GestureType.open_palm
  { landmarks := lm
    worldLandmarks := []
    handedness := handed
    isPinching := isPinching
    pinchStrength := max 0 (1 - pinchDist / PINCH_THRESHOLD)
    pinchPosition := smoothedPinchPos
    palmPosition := smoothedPalmPos
    rotation := smoothedRotation
    extendedFingers := extendedCount
    gestureType := gestureType }

/-- One detection produced by the landmark model for the current frame:
21 landmarks plus the top handedness category. -/
structure Detection where
  landmarks : Nat → Vec3
  handedness : Handedness

/-- The two-hand gesture label of `TrackingState` (`src/types.ts`). -/
inductive Gesture where
  | none
  | rotate
  | pinch_drag
  | zoom
  | hover
  deriving DecidableEq, Repr

/-- `TrackingState` (`src/types.ts`): at most one processed hand per side
plus the aggregated gesture. -/
structure TrackingState where
  leftHand : Option HandData
  rightHand : Option HandData
  gesture : Gesture
  interactionStrength : ℝ

/-- The per-detection loop of `predict` (`HandTracker.tsx` lines 216–246):
each detected hand is processed against the previous frame's hand of the
same label and stored in the slot for its label (a later detection with
the same label overwrites an earlier one). -/
def assignHands (dets : List Detection) (prevL prevR : Option HandData) :
    Option HandData × Option HandData :=
  dets.foldl
    (fun acc det =>
      let prevHand := if det.handedness = Handedness.Left then prevL else prevR
      let processed := processHand det.landmarks det.handedness prevHand
      if det.handedness = Handedness.Left then (some processed, acc.2)
      else (acc.1, some processed))
    (none, none)

/-- The gesture aggregation of `predict` (`HandTracker.tsx` lines 248–266):
priority rules combining the two optional processed hands into one
cross-hand gesture and interaction strength. -/
def aggregateGesture (l r : Option HandData) : Gesture × ℝ :=
  match l, r with
  | some lh, some rh =>
    let dist := lh.palmPosition.distanceTo rh.palmPosition
    if 0.2 < dist ∧ ¬lh.isPinching ∧ ¬rh.isPinching then (Gesture.zoom, dist)
    else (Gesture.none, 0)
  | some lh, none =>
    if lh.isPinching then (Gesture.pinch_drag, lh.pinchStrength) else (Gesture.rotate, 0)
  | none, some rh =>
    if rh.isPinching then (Gesture.pinch_drag, rh.pinchStrength) else (Gesture.rotate, 0)
  | none, none => (Gesture.none, 0)

/-- One full tracking frame of `predict`: assign the detections to the two
slots, aggregate the gesture, and replace the whole `TrackingState`. -/
def trackFrame (dets : List Detection) (prev : TrackingState) : TrackingState :=
  let hands := assignHands dets prev.leftHand prev.rightHand
  let agg := aggregateGesture hands.1 hands.2
  { leftHand := hands.1
    rightHand := hands.2
    gesture := agg.1
    interactionStrength := agg.2 }

/-! ## Chemistry lab scene controller (`ChemistryLab`, `src/unnamed/part_000`) -/

/-- three.js `Color` (float components `r g b`, each `0..1`). -/
structure Color where
  r : ℝ
  g : ℝ
  b : ℝ

/-- three.js `Color.lerp(color, alpha)`: componentwise blend toward `c2`. -/
def Color.lerp (c1 c2 : Color) (alpha : ℝ) : Color :=
  ⟨lerpR c1.r c2.r alpha, lerpR c1.g c2.g alpha, lerpR c1.b c2.b alpha⟩

/-- The `Equipment.type` union. -/
inductive EquipType where
  | FLASK
  | TUBE
  | TEST_TUBE
  deriving DecidableEq, Repr

/-- The `Equipment.liquidType` union. -/
inductive LiquidType where
  | water
  | acid
  | base
  | indicator
  deriving DecidableEq, Repr

/-- The `Equipment` interface of the chemistry scene (`part_000` lines
11–21).  `rotation` is a three.js `Euler`, modelled by its three angle
components. -/
structure Equipment where
  id : String
  type : EquipType
  position : Vec3
  rotation : Vec3
  color : Color
  liquidLevel : ℝ
  heldBy : Option Handedness
  liquidType : Option LiquidType
  label : Option String

/-- Hand-to-world mapping of the chemistry scene (`part_000` lines
329–333). -/
def handWorldPos (hand : HandData) : Vec3 :=
  ⟨(0.5 - hand.pinchPosition.x) * 14, (0.5 - hand.pinchPosition.y) * 10, 0⟩

/-- Per-object-type capture radius (`part_000` line 337): test tubes are
easier to grab. -/
def grabDistance (t : EquipType) : ℝ :=
  if t = EquipType.TEST_TUBE then 0.8 else 1.5

/-- The rack slot x-coordinates and the `reduce` over them that finds the
slot nearest to `x` (`part_000` lines 382–385). -/
def nearestRackSlot (x : ℝ) : ℝ :=
  [(-2.5 : ℝ), -1, 0.5, 2, 3.5].foldl
    (fun prev curr => if |curr - x| < |prev - x| then curr else prev) (-4)

/-- The grab/release body run for one hand side on one item
(`part_000` lines 335–399).  `time` is `state.clock.elapsedTime`. -/
def interactItem (side : Handedness) (hand : HandData) (time : ℝ) (item : Equipment) :
    Equipment :=
  let handPos := handWorldPos hand
  let dist := handPos.distanceTo item.position
  let gd := grabDistance item.type
  if dist < gd ∧ hand.isPinching ∧ (item.heldBy = none ∨ item.heldBy = some side) then
    let wrist := hand.landmarks 0
    let idx := hand.landmarks 8
    let angle := atan2 (idx.y - wrist.y) (idx.x - wrist.x)
    if item.type = EquipType.TEST_TUBE then
      let targetZ := -(angle + Real.pi / 2) * 0.7
      { item with
        heldBy := some side
        position := handPos
        rotation := ⟨Real.sin (time * 2) * 0.05, item.rotation.y,
          lerpR item.rotation.z targetZ 0.3⟩ }
    else
      let targetZ := -(angle + Real.pi / 2)
      { item with
        heldBy := some side
        position := handPos
        rotation := ⟨item.rotation.x, item.rotation.y,
          lerpR item.rotation.z targetZ 0.2⟩ }
  else if item.heldBy = some side ∧ ¬hand.isPinching then
    let p := item.position
    let snapped :=
      if item.type = EquipType.TEST_TUBE then
        if -1.5 < p.y then
          let nearestPos := nearestRackSlot p.x
          ⟨lerpR p.x nearestPos 0.5, -1.5, p.z⟩
        else p
      else
        if -1.5 < p.y then ⟨p.x, -1.5, p.z⟩ else p
    { item with heldBy := none, position := snapped, rotation := ⟨0, 0, 0⟩ }
  else item

/-- One side's pass of the interaction loop: skipped entirely when that
side's hand is absent (`if (!hand) return;`). -/
def applyHand (side : Handedness) (hand : Option HandData) (time : ℝ)
    (items : List Equipment) : List Equipment :=
  match hand with
  | none => items
  | some h => items.map (interactItem side h time)

/-- The inner `forEach` of the pouring logic (`part_000` lines 408–439)
for a fixed source index `i`: every other vessel within distance `2.5`
and more than `1` below the source receives `0.015` of liquid; the source
is decremented (without clamping) and the target's color is replaced when
its level is at most `0.05`, otherwise blended toward the source color at
rate `0.1`; the target's level is clamped at `1`.  The source element is
re-read from the evolving list at every step, matching the JavaScript
aliasing of `nextItems[i]`. -/
def pourTargets (items : List Equipment) (i : Nat) : List Equipment :=
  (List.range items.length).foldl
    (fun acc j =>
      if j = i then acc
      else
        match acc[i]?, acc[j]? with
        | some src, some tgt =>
          let d := src.position.distanceTo tgt.position
          if d < 2.5 ∧ tgt.position.y + 1 < src.position.y then
            let amount : ℝ := 0.015
            let src' := { src with liquidLevel := src.liquidLevel - amount }
            let tgt' := { tgt with
              color :=
                if tgt.liquidLevel ≤ 0.05 then src.color
                else tgt.color.lerp src.color 0.1
              liquidLevel := min 1 (tgt.liquidLevel + amount) }
            (acc.set i src').set j tgt'
          else acc
        | _, _ => acc)
    items

/-- The outer pouring loop (`part_000` lines 402–441): a vessel pours only
when it is held, its level is strictly positive, and its tilt `|rotation.z|`
exceeds `1.0` rad.  (The random particle spawning does not touch the
equipment list and is not modelled.) -/
def pourStep (items : List Equipment) : List Equipment :=
  (List.range items.length).foldl
    (fun acc i =>
      match acc[i]? with
      | some src =>
        if src.heldBy ≠ none ∧ 0 < src.liquidLevel then
          if 1 < |src.rotation.z| then pourTargets acc i else acc
        else acc
      | none => acc)
    items

/-- One full `useFrame` update of `ChemistryLab` on the equipment list:
the `['Left', 'Right']` interaction passes (in that order) followed by the
pouring pass. -/
def chemStep (leftHand rightHand : Option HandData) (time : ℝ)
    (items : List Equipment) : List Equipment :=
  pourStep (applyHand Handedness.Right rightHand time
    (applyHand Handedness.Left leftHand time items))

/-! ### `INITIAL_ITEMS` (`part_000` lines 24–75) -/

/-- `#ff4444`. -/
def colorRed : Color := ⟨1, 68 / 255, 68 / 255⟩

/-- `#ffffff`. -/
def colorWhite : Color := ⟨1, 1, 1⟩

def tube1 : Equipment :=
  { id := ("tube1"), type := EquipType.TEST_TUBE
    position := ⟨-4, -1, 0⟩, rotation := ⟨0, 0, 0⟩
    color := colorRed, liquidLevel := 0.7, heldBy := none
    liquidType := some LiquidType.acid, label := some ("HCl") }

def tube2 : Equipment :=
  { id := ("tube2"), type := EquipType.TEST_TUBE
    position := ⟨-2.5, -1, 0⟩, rotation := ⟨0, 0, 0⟩
    color := ⟨68 / 255, 68 / 255, 1⟩, liquidLevel := 0.6, heldBy := none
    liquidType := some LiquidType.base, label := some ("NaOH") }

def tube3 : Equipment :=
  { id := ("tube3"), type := EquipType.TEST_TUBE
    position := ⟨-1, -1, 0⟩, rotation := ⟨0, 0, 0⟩
    color := ⟨68 / 255, 1, 68 / 255⟩, liquidLevel := 0.8, heldBy := none
    liquidType := some LiquidType.water, label := some ("H2O") }

def tube4 : Equipment :=
  { id := ("tube4"), type := EquipType.TEST_TUBE
    position := ⟨0.5, -1, 0⟩, rotation := ⟨0, 0, 0⟩
    color := ⟨1, 170 / 255, 0⟩, liquidLevel := 0.5, heldBy := none
    liquidType := some LiquidType.indicator, label := some ("PH") }

def tube5 : Equipment :=
  { id := ("tube5"), type := EquipType.TEST_TUBE
    position := ⟨2, -1, 0⟩, rotation := ⟨0, 0, 0⟩
    color := ⟨1, 0, 1⟩, liquidLevel := 0.4, heldBy := none
    liquidType := some LiquidType.acid, label := some ("H2SO4") }

def tube6 : Equipment :=
  { id := ("tube6"), type := EquipType.TEST_TUBE
    position := ⟨3.5, -1, 0⟩, rotation := ⟨0, 0, 0⟩
    color := ⟨0, 1, 1⟩, liquidLevel := 0.9, heldBy := none
    liquidType := some LiquidType.water, label := some ("Distilled") }

def beaker1 : Equipment :=
  { id := ("beaker1"), type := EquipType.FLASK
    position := ⟨-2, 0, 2⟩, rotation := ⟨0, 0, 0⟩
    color := colorWhite, liquidLevel := 0, heldBy := none
    liquidType := none, label := some ("MIX 1") }

def beaker2 : Equipment :=
  { id := ("beaker2"), type := EquipType.FLASK
    position := ⟨2, 0, 2⟩, rotation := ⟨0, 0, 0⟩
    color := colorWhite, liquidLevel := 0, heldBy := none
    liquidType := none, label := some ("MIX 2") }

/-- The initial equipment list of the chemistry scene. -/
def INITIAL_ITEMS : List Equipment :=
  [tube1, tube2, tube3, tube4, tube5, tube6, beaker1, beaker2]

/-! ## Solar-system scene controller (`SolarSystem`, `src/unnamed/part_001`) -/

/-- An entry of the `PLANETS` array. -/
structure Planet where
  name : String
  distance : ℝ
  size : ℝ
  speed : ℝ

/-- `PLANETS` (`part_001` lines 12–19); index 0 is the full view. -/
def PLANETS : List Planet :=
  [ { name := ("Solar System"), distance := 0, size := 4.0, speed := 0 }
  , { name := ("Mercury"), distance := 10, size := 0.8, speed := 1.2 }
  , { name := ("Venus"), distance := 15, size := 1.2, speed := 0.9 }
  , { name := ("Earth"), distance := 22, size := 1.3, speed := 0.6 }
  , { name := ("Mars"), distance := 30, size := 1.0, speed := 0.5 }
  , { name := ("Jupiter"), distance := 45, size := 3.5, speed := 0.2 } ]

/-- The gesture-to-target mapping of the navigation logic (`part_001`
lines 48–53); `-1` means "no change". -/
def gestureTargetIndex (g : GestureType) : Int :=
  match g with
  | GestureType.fist => 0
  | GestureType.one_finger => 1
  | GestureType.two_fingers => 2
  | GestureType.three_fingers => 3
  | GestureType.four_fingers => 4
  | GestureType.open_palm => 5
  | GestureType.gnone => -1

/-- `const hand = hs.rightHand || hs.leftHand` (`part_001` line 41). -/
def solarActiveHand (l r : Option HandData) : Option HandData :=
  match r with
  | some h => some h
  | none => l

/-- The target-selection logic of `SolarSystem`'s `useFrame` (`part_001`
lines 40–58): only a present, non-pinching hand switches the target, and
only to a valid index different from the current one. -/
def updateTargetIndex (l r : Option HandData) (current : Int) : Int :=
  match solarActiveHand l r with
  | none => current
  | some hand =>
    if hand.isPinching then current
    else
      let newIndex := gestureTargetIndex hand.gestureType
      if newIndex ≠ -1 ∧ newIndex < (PLANETS.length : Int) ∧ newIndex ≠ current then
        newIndex
      else current

/-- The ideal camera radius for a target index (`part_001` lines 102–105):
`60` for the full view, `size*5 + 5` for a planet. -/
def idealRadius (targetIndex : Int) : ℝ :=
  if 0 < targetIndex then
    ((PLANETS.getD targetIndex.toNat ⟨(""), 0, 0, 0⟩).size) * 5 + 5
  else 60

/-- The per-frame camera radius update (`part_001` line 107):
`radius ← lerp(radius, idealRadius, 0.05)`. -/
def radiusStep (targetIndex : Int) (radius : ℝ) : ℝ :=
  lerpR radius (idealRadius targetIndex) 0.05

/-- The per-frame look-at update (`part_001` line 97):
`targetLookAt ← targetLookAt.lerp(targetPlanetPos, 0.05)`. -/
def lookAtStep (targetPlanetPos lookAt : Vec3) : Vec3 :=
  lookAt.lerp targetPlanetPos 0.05

/-! ## Helper lemmas -/

/-- Evaluate a Euclidean distance whose squared value is a perfect square. -/
lemma distanceTo_eval (a b : Vec3) (c : ℝ) (hc : 0 ≤ c)
    (h : (a.x - b.x) ^ 2 + (a.y - b.y) ^ 2 + (a.z - b.z) ^ 2 = c ^ 2) :
    a.distanceTo b = c := by
  rw [Vec3.distanceTo, h, Real.sqrt_sq hc]

/-- A distance is below a bound when its square is. -/
lemma distanceTo_lt (a b : Vec3) (c : ℝ) (hc : 0 < c)
    (h : (a.x - b.x) ^ 2 + (a.y - b.y) ^ 2 + (a.z - b.z) ^ 2 < c ^ 2) :
    a.distanceTo b < c := by
  rw [Vec3.distanceTo]
  exact (Real.sqrt_lt' hc).mpr h

/-- A distance is not below a bound when its square is at least the bound's
square. -/
lemma not_distanceTo_lt (a b : Vec3) (c : ℝ) (hc : 0 < c)
    (h : c ^ 2 ≤ (a.x - b.x) ^ 2 + (a.y - b.y) ^ 2 + (a.z - b.z) ^ 2) :
    ¬a.distanceTo b < c := by
  rw [Vec3.distanceTo]
  exact not_lt.mpr ((Real.le_sqrt' hc).mpr h)

/-- A distance exceeds a bound when its square exceeds the bound's square. -/
lemma lt_distanceTo (a b : Vec3) (c : ℝ) (hc : 0 ≤ c)
    (h : c ^ 2 < (a.x - b.x) ^ 2 + (a.y - b.y) ^ 2 + (a.z - b.z) ^ 2) :
    c < a.distanceTo b := by
  rw [Vec3.distanceTo]
  exact (Real.lt_sqrt hc).mpr h

/-- Distances are nonnegative. -/
lemma distanceTo_nonneg (a b : Vec3) : 0 ≤ a.distanceTo b :=
  Real.sqrt_nonneg _

/-- The gesture classifier of `processHand`, extracted for case analysis. -/
lemma processHand_gestureType (lm : Nat → Vec3) (handed : Handedness)
    (lastHand : Option HandData) :
    (processHand lm handed lastHand).gestureType =
      (if (lm 4).distanceTo (lm 8) < PINCH_THRESHOLD then GestureType.fist
       else if countExtendedFingers lm = 1 then GestureType.one_finger
       else if countExtendedFingers lm = 2 then GestureType.two_fingers
       else if countExtendedFingers lm = 3 then GestureType.three_fingers
       else if countExtendedFingers lm = 4 then GestureType.four_fingers
       else if countExtendedFingers lm = 5 then GestureType.open_palm
       else GestureType.open_palm) := rfl

/-- The extended-finger count never exceeds five: at most one per entry of
`fingerPairs` plus at most one for the thumb. -/
lemma countExtendedFingers_le (lm : Nat → Vec3) : countExtendedFingers lm ≤ 5 := by
  unfold countExtendedFingers fingerPairs
  simp only [List.foldl_cons, List.foldl_nil]
  split_ifs <;> norm_num

/-- A concrete processed hand used by witnesses: only the fields relevant
to each witness matter. -/
def mkHand (handed : Handedness) (pinch : Prop) (strength : ℝ) (palm pinchPos : Vec3) :
    HandData :=
  { landmarks := fun _ => ⟨0, 0, 0⟩
    worldLandmarks := []
    handedness := handed
    isPinching := pinch
    pinchStrength := strength
    palmPosition := palm
    pinchPosition := pinchPos
    rotation := ⟨0, 0, 0, 1⟩
    extendedFingers := 0
    gestureType := GestureType.open_palm }

/-! ## Claims about the hand signal processor and the aggregator -/

/-- C1: the aggregated gesture in `TrackingState` is a pure, deterministic
function of the current frame's two processed hands, decided by
first-match priority: both hands present, neither pinching, palm distance
above `0.2` ⇒ `zoom` with strength that distance; exactly one hand,
pinching ⇒ `pinch_drag` with strength its pinch strength; exactly one
hand, not pinching ⇒ `rotate`; every other case (no hands, or both hands
with either pinching or distance at most `0.2`) ⇒ `none` with strength
`0`. -/
theorem C1_aggregated_gesture (l r : Option HandData) :
    (∀ lh rh, l = some lh → r = some rh →
      ((¬lh.isPinching ∧ ¬rh.isPinching ∧
          0.2 < lh.palmPosition.distanceTo rh.palmPosition) →
        aggregateGesture l r =
          (Gesture.zoom, lh.palmPosition.distanceTo rh.palmPosition)) ∧
      ((lh.isPinching ∨ rh.isPinching ∨
          lh.palmPosition.distanceTo rh.palmPosition ≤ 0.2) →
        aggregateGesture l r = (Gesture.none, 0))) ∧
    (∀ h, (l = some h ∧ r = none) ∨ (l = none ∧ r = some h) →
      (h.isPinching → aggregateGesture l r = (Gesture.pinch_drag, h.pinchStrength)) ∧
      (¬h.isPinching → aggregateGesture l r = (Gesture.rotate, 0))) ∧
    (l = none → r = none → aggregateGesture l r = (Gesture.none, 0)) := by
  refine ⟨?_, ?_, ?_⟩
  · rintro lh rh rfl rfl
    constructor
    · rintro ⟨h1, h2, h3⟩
      simp only [aggregateGesture]
      rw [if_pos ⟨h3, h1, h2⟩]
    · intro hcase
      simp only [aggregateGesture]
      rw [if_neg]
      rintro ⟨hd, hnl, hnr⟩
      rcases hcase with h | h | h
      · exact hnl h
      · exact hnr h
      · exact absurd hd (not_lt.mpr h)
  · rintro h (⟨rfl, rfl⟩ | ⟨rfl, rfl⟩) <;>
      refine ⟨fun hp => ?_, fun hp => ?_⟩ <;>
      simp only [aggregateGesture] <;> [rw [if_pos hp]; rw [if_neg hp];
        rw [if_pos hp]; rw [if_neg hp]]
  · rintro rfl rfl
    rfl

/-- Witness for C1: two non-pinching hands whose palms are `0.3` apart
(the spec's own example) yield the `zoom` gesture with strength `0.3`;
a single pinching hand yields `pinch_drag` with its pinch strength. -/
theorem C1_aggregated_gesture_witness :
    aggregateGesture
        (some (mkHand Handedness.Left False 0 ⟨0, 0, 0⟩ ⟨0, 0, 0⟩))
        (some (mkHand Handedness.Right False 0 ⟨0.3, 0, 0⟩ ⟨0, 0, 0⟩)) =
      (Gesture.zoom, 0.3) ∧
    aggregateGesture
        (some (mkHand Handedness.Left True 0.9 ⟨0, 0, 0⟩ ⟨0, 0, 0⟩)) none =
      (Gesture.pinch_drag, 0.9) := by
  have hdist :
      (mkHand Handedness.Left False 0 ⟨0, 0, 0⟩ ⟨0, 0, 0⟩).palmPosition.distanceTo
        (mkHand Handedness.Right False 0 ⟨0.3, 0, 0⟩ ⟨0, 0, 0⟩).palmPosition = 0.3 := by
    apply distanceTo_eval <;> norm_num [mkHand]
  constructor
  · have := ((C1_aggregated_gesture
        (some (mkHand Handedness.Left False 0 ⟨0, 0, 0⟩ ⟨0, 0, 0⟩))
        (some (mkHand Handedness.Right False 0 ⟨0.3, 0, 0⟩ ⟨0, 0, 0⟩))).1
        _ _ rfl rfl).1 (by rw [hdist]; norm_num [mkHand])
    rwa [hdist] at this
  · exact ((C1_aggregated_gesture
        (some (mkHand Handedness.Left True 0.9 ⟨0, 0, 0⟩ ⟨0, 0, 0⟩)) none).2.1
        _ (Or.inl ⟨rfl, rfl⟩)).1 trivial

/-- C2: for every processed hand, with `d` the Euclidean distance between
the thumb-tip landmark (index 4) and the index-tip landmark (index 8),
`isPinching` holds iff `d < PINCH_THRESHOLD` (= 0.05), and `pinchStrength`
equals `max 0 (1 - d / PINCH_THRESHOLD)`, which always lies in `[0, 1]`. -/
theorem C2_pinch_detection (lm : Nat → Vec3) (handed : Handedness)
    (lastHand : Option HandData) :
    ((processHand lm handed lastHand).isPinching ↔
      (lm 4).distanceTo (lm 8) < PINCH_THRESHOLD) ∧
    (processHand lm handed lastHand).pinchStrength =
      max 0 (1 - (lm 4).distanceTo (lm 8) / PINCH_THRESHOLD) ∧
    0 ≤ (processHand lm handed lastHand).pinchStrength ∧
    (processHand lm handed lastHand).pinchStrength ≤ 1 := by
  refine ⟨Iff.rfl, rfl, le_max_left _ _, ?_⟩
  show max 0 (1 - (lm 4).distanceTo (lm 8) / PINCH_THRESHOLD) ≤ 1
  apply max_le (by norm_num)
  have hd : 0 ≤ (lm 4).distanceTo (lm 8) := distanceTo_nonneg _ _
  have : 0 ≤ (lm 4).distanceTo (lm 8) / PINCH_THRESHOLD :=
    div_nonneg hd (by norm_num [PINCH_THRESHOLD])
  linarith

/-- Witness for C2: a hand whose thumb tip and index tip are `0.01` apart
is pinching with strength `0.8 = max 0 (1 - 0.01/0.05)`. -/
theorem C2_pinch_detection_witness :
    (processHand
        (fun i => if i = 4 then ⟨0.5, 0.5, 0⟩ else if i = 8 then ⟨0.51, 0.5, 0⟩
          else ⟨0, 0, 0⟩)
        Handedness.Left none).isPinching ∧
    (processHand
        (fun i => if i = 4 then ⟨0.5, 0.5, 0⟩ else if i = 8 then ⟨0.51, 0.5, 0⟩
          else ⟨0, 0, 0⟩)
        Handedness.Left none).pinchStrength = 0.8 := by
  have hdist :
      Vec3.distanceTo
        ((fun i => if i = 4 then (⟨0.5, 0.5, 0⟩ : Vec3)
            else if i = 8 then ⟨0.51, 0.5, 0⟩ else ⟨0, 0, 0⟩) 4)
        ((fun i => if i = 4 then (⟨0.5, 0.5, 0⟩ : Vec3)
            else if i = 8 then ⟨0.51, 0.5, 0⟩ else ⟨0, 0, 0⟩) 8) = 0.01 := by
    apply distanceTo_eval <;> norm_num
  have h := C2_pinch_detection
    (fun i => if i = 4 then ⟨0.5, 0.5, 0⟩ else if i = 8 then ⟨0.51, 0.5, 0⟩
      else ⟨0, 0, 0⟩)
    Handedness.Left none
  refine ⟨h.1.mpr ?_, ?_⟩
  · rw [hdist]; norm_num [PINCH_THRESHOLD]
  · rw [h.2.1, hdist]; norm_num [PINCH_THRESHOLD]

/-- C6: the extended-finger count of a processed hand is at most `5`
(it is a natural number, hence in `[0, 5]`), and the gesture label is the
deterministic function of `(isPinching, extendedFingers)` given by the
source's lookup: pinching ⇒ `fist`, and `fist` arises only from pinching
(so a closed-fist-without-pinch label is never produced); otherwise counts
`1`–`5` map to `one_finger` … `open_palm` respectively. -/
theorem C6_gesture_classification (lm : Nat → Vec3) (handed : Handedness)
    (lastHand : Option HandData) :
    (processHand lm handed lastHand).extendedFingers ≤ 5 ∧
    ((processHand lm handed lastHand).isPinching →
      (processHand lm handed lastHand).gestureType = GestureType.fist) ∧
    ((processHand lm handed lastHand).gestureType = GestureType.fist →
      (processHand lm handed lastHand).isPinching) ∧
    (¬(processHand lm handed lastHand).isPinching →
      ((processHand lm handed lastHand).extendedFingers = 1 →
        (processHand lm handed lastHand).gestureType = GestureType.one_finger) ∧
      ((processHand lm handed lastHand).extendedFingers = 2 →
        (processHand lm handed lastHand).gestureType = GestureType.two_fingers) ∧
      ((processHand lm handed lastHand).extendedFingers = 3 →
        (processHand lm handed lastHand).gestureType = GestureType.three_fingers) ∧
      ((processHand lm handed lastHand).extendedFingers = 4 →
        (processHand lm handed lastHand).gestureType = GestureType.four_fingers) ∧
      ((processHand lm handed lastHand).extendedFingers = 5 →
        (processHand lm handed lastHand).gestureType = GestureType.open_palm)) := by
  have hext : (processHand lm handed lastHand).extendedFingers = countExtendedFingers lm :=
    rfl
  have hpin : (processHand lm handed lastHand).isPinching ↔
      (lm 4).distanceTo (lm 8) < PINCH_THRESHOLD := Iff.rfl
  refine ⟨hext ▸ countExtendedFingers_le lm, ?_, ?_, ?_⟩
  · intro hp
    rw [processHand_gestureType, if_pos (hpin.mp hp)]
  · intro hg
    by_contra hnp
    rw [processHand_gestureType, if_neg (fun hc => hnp (hpin.mpr hc))] at hg
    split_ifs at hg
  · intro hnp
    have hcond : ¬(lm 4).distanceTo (lm 8) < PINCH_THRESHOLD :=
      fun hc => hnp (hpin.mpr hc)
    refine ⟨fun hc => ?_, fun hc => ?_, fun hc => ?_, fun hc => ?_, fun hc => ?_⟩ <;>
      rw [hext] at hc <;>
      rw [processHand_gestureType, if_neg hcond] <;>
      simp [hc]

/-! ## Helper lemmas about the chemistry frame update -/

/-- The hand slot of `TrackingState` belonging to a side. -/
def handOf (S : Handedness) (l r : Option HandData) : Option HandData :=
  match S with
  | Handedness.Left => l
  | Handedness.Right => r

/-- The equipment list as a given side's interaction pass sees it: the
`Left` pass runs first on the frame's input, the `Right` pass runs on the
output of the `Left` pass. -/
def sidePreState (S : Handedness) (l : Option HandData) (time : ℝ)
    (items : List Equipment) : List Equipment :=
  match S with
  | Handedness.Left => items
  | Handedness.Right => applyHand Handedness.Left l time items

/-- The fields of a vessel that the pouring pass never writes. -/
def nonLiquid (e : Equipment) :
    String × EquipType × Vec3 × Vec3 × Option Handedness × Option LiquidType ×
      Option String :=
  (e.id, e.type, e.position, e.rotation, e.heldBy, e.liquidType, e.label)

lemma applyHand_none (side : Handedness) (time : ℝ) (items : List Equipment) :
    applyHand side none time items = items := rfl

lemma applyHand_some_getElem (side : Handedness) (h : HandData) (time : ℝ)
    (items : List Equipment) (k : Nat) :
    (applyHand side (some h) time items)[k]? =
      (items[k]?).map (interactItem side h time) := by
  simp [applyHand, List.getElem?_map]

/-- A fold whose body preserves `nonLiquid` pointwise preserves it. -/
lemma foldl_nonLiquid {f : List Equipment → Nat → List Equipment}
    (hf : ∀ (acc : List Equipment) (j k : Nat),
      ((f acc j)[k]?).map nonLiquid = (acc[k]?).map nonLiquid) :
    ∀ (js : List Nat) (acc : List Equipment) (k : Nat),
      ((js.foldl f acc)[k]?).map nonLiquid = (acc[k]?).map nonLiquid := by
  intro js
  induction js with
  | nil => intro acc k; rfl
  | cons j js ih =>
    intro acc k
    rw [List.foldl_cons, ih]
    exact hf acc j k

/-- An index with a present element is within bounds. -/
lemma lt_length_of_getElem?_some {l : List Equipment} {i : Nat} {e : Equipment}
    (h : l[i]? = some e) : i < l.length := by
  by_contra hlen
  rw [List.getElem?_eq_none (Nat.le_of_not_lt hlen)] at h
  exact Option.noConfusion h

/-- The inner pouring loop only writes `liquidLevel` and `color`. -/
lemma pourTargets_nonLiquid (items : List Equipment) (i : Nat) (k : Nat) :
    ((pourTargets items i)[k]?).map nonLiquid = (items[k]?).map nonLiquid := by
  refine foldl_nonLiquid (fun acc j k => ?_) _ items k
  by_cases hji : j = i
  · rw [if_pos hji]
  · rw [if_neg hji]
    rcases hsi : acc[i]? with _ | src
    · rfl
    rcases hsj : acc[j]? with _ | tgt
    · rfl
    have hilen : i < acc.length := lt_length_of_getElem?_some hsi
    have hjlen : j < acc.length := lt_length_of_getElem?_some hsj
    simp only []
    by_cases hcond : src.position.distanceTo tgt.position < 2.5 ∧
      tgt.position.y + 1 < src.position.y
    · rw [if_pos hcond]
      by_cases hkj : j = k
      · subst hkj
        rw [List.getElem?_set_self (by rwa [List.length_set]), hsj]
        rfl
      · rw [List.getElem?_set_ne hkj]
        by_cases hki : i = k
        · subst hki
          rw [List.getElem?_set_self hilen, hsi]
          rfl
        · rw [List.getElem?_set_ne hki]
    · rw [if_neg hcond]

/-- The pouring pass only writes `liquidLevel` and `color`: identifiers,
types, positions, rotations and the `heldBy` field are untouched. -/
lemma pourStep_nonLiquid (items : List Equipment) (k : Nat) :
    ((pourStep items)[k]?).map nonLiquid = (items[k]?).map nonLiquid := by
  refine foldl_nonLiquid (fun acc i k => ?_) _ items k
  rcases hsi : acc[i]? with _ | src
  · rfl
  simp only []
  split_ifs with h1 h2
  · exact pourTargets_nonLiquid acc i k
  · rfl
  · rfl

/-- Unpack the `nonLiquid` preservation of the pouring pass at one index. -/
lemma pourStep_getElem (items : List Equipment) (k : Nat) (e : Equipment)
    (he : items[k]? = some e) :
    ∃ e', (pourStep items)[k]? = some e' ∧ e'.id = e.id ∧ e'.type = e.type ∧
      e'.position = e.position ∧ e'.rotation = e.rotation ∧ e'.heldBy = e.heldBy := by
  have h := pourStep_nonLiquid items k
  rw [he] at h
  rcases he' : (pourStep items)[k]? with _ | e'
  · rw [he'] at h
    exact absurd h (by simp)
  · rw [he'] at h
    simp only [Option.map_some'] at h
    have h' : nonLiquid e' = nonLiquid e := Option.some_injective _ h
    simp only [nonLiquid, Prod.mk.injEq] at h'
    exact ⟨e', rfl, h'.1, h'.2.1, h'.2.2.1, h'.2.2.2.1, h'.2.2.2.2.1⟩

/-- An item held by the opposite side is untouched by a side's pass:
the grab branch requires the item to be unheld or held by this side,
and the release branch requires it to be held by this side. -/
lemma interactItem_other_side (side : Handedness) (hand : HandData) (time : ℝ)
    (item : Equipment) (S : Handedness) (hheld : item.heldBy = some S)
    (hne : S ≠ side) : interactItem side hand time item = item := by
  simp only [interactItem]
  rw [if_neg, if_neg]
  · rintro ⟨h1, h2⟩
    rw [hheld] at h1
    exact hne (Option.some_injective _ h1)
  · rintro ⟨-, -, h3 | h3⟩ <;> rw [hheld] at h3
    · exact Option.noConfusion h3
    · exact hne (Option.some_injective _ h3)

/-- After a side's pass, an item is held by `S` only if it already was, or
it was grabbed this pass: `S` is this side, the hand pinches, and the
item's position lies within its capture radius of the mapped hand
position. -/
lemma interactItem_heldBy_some (side : Handedness) (hand : HandData) (time : ℝ)
    (item : Equipment) (S : Handedness)
    (h : (interactItem side hand time item).heldBy = some S) :
    item.heldBy = some S ∨
      (S = side ∧ hand.isPinching ∧
        (handWorldPos hand).distanceTo item.position < grabDistance item.type) := by
  by_cases hg : (handWorldPos hand).distanceTo item.position < grabDistance item.type ∧
      hand.isPinching ∧ (item.heldBy = none ∨ item.heldBy = some side)
  · simp only [interactItem] at h
    rw [if_pos hg] at h
    right
    refine ⟨?_, hg.2.1, hg.1⟩
    by_cases ht : item.type = EquipType.TEST_TUBE
    · rw [if_pos ht] at h
      exact (Option.some_injective _ h).symm
    · rw [if_neg ht] at h
      exact (Option.some_injective _ h).symm
  · simp only [interactItem] at h
    rw [if_neg hg] at h
    by_cases hr : item.heldBy = some side ∧ ¬hand.isPinching
    · rw [if_pos hr] at h
      exact Option.noConfusion h
    · rw [if_neg hr] at h
      exact Or.inl h

/-- While a holding hand keeps pinching, a side's own pass keeps the item
held by that side (either re-grabbing it in range or leaving it alone). -/
lemma interactItem_keep (side : Handedness) (hand : HandData) (time : ℝ)
    (item : Equipment) (hheld : item.heldBy = some side)
    (hp : hand.isPinching) :
    (interactItem side hand time item).heldBy = some side := by
  simp only [interactItem]
  by_cases hg : (handWorldPos hand).distanceTo item.position < grabDistance item.type ∧
      hand.isPinching ∧ (item.heldBy = none ∨ item.heldBy = some side)
  · rw [if_pos hg]
    by_cases ht : item.type = EquipType.TEST_TUBE
    · rw [if_pos ht]
    · rw [if_neg ht]
  · rw [if_neg hg, if_neg (fun hc => hc.2 hp)]
    exact hheld

/-- The release branch: when a side's hand is present but not pinching and
the item is held by that side, the pass clears `heldBy`, resets the
rotation and applies the snap-back to the position, leaving every other
field unchanged. -/
lemma interactItem_release (side : Handedness) (hand : HandData) (time : ℝ)
    (item : Equipment) (hheld : item.heldBy = some side)
    (hnp : ¬hand.isPinching) :
    interactItem side hand time item =
      { item with
        heldBy := none
        rotation := ⟨0, 0, 0⟩
        position :=
          if item.type = EquipType.TEST_TUBE then
            if -1.5 < item.position.y then
              ⟨lerpR item.position.x (nearestRackSlot item.position.x) 0.5, -1.5,
                item.position.z⟩
            else item.position
          else
            if -1.5 < item.position.y then
              ⟨item.position.x, -1.5, item.position.z⟩
            else item.position } := by
  simp only [interactItem]
  rw [if_neg (fun hc => hnp hc.2.1), if_pos ⟨hheld, hnp⟩]

/-- The action of one side's (optional) pass on one item. -/
def optInteract (side : Handedness) (hand : Option HandData) (time : ℝ)
    (e : Equipment) : Equipment :=
  match hand with
  | none => e
  | some h => interactItem side h time e

lemma applyHand_getElem (side : Handedness) (hand : Option HandData) (time : ℝ)
    (items : List Equipment) (k : Nat) (e : Equipment) (he : items[k]? = some e) :
    (applyHand side hand time items)[k]? = some (optInteract side hand time e) := by
  cases hand
  · rw [applyHand_none, he]
    rfl
  · rw [applyHand_some_getElem, he]
    rfl

/-- The element of a chemistry frame's output at an index, expressed by
the two interaction passes followed by the field-preserving pour pass. -/
lemma chemStep_elem (l r : Option HandData) (time : ℝ) (items : List Equipment)
    (k : Nat) (e : Equipment) (he : items[k]? = some e) :
    ∃ e', (chemStep l r time items)[k]? = some e' ∧
      e'.heldBy = (optInteract Handedness.Right r time
        (optInteract Handedness.Left l time e)).heldBy ∧
      e'.position = (optInteract Handedness.Right r time
        (optInteract Handedness.Left l time e)).position ∧
      e'.rotation = (optInteract Handedness.Right r time
        (optInteract Handedness.Left l time e)).rotation := by
  have h1 := applyHand_getElem Handedness.Left l time items k e he
  have h2 := applyHand_getElem Handedness.Right r time _ k _ h1
  obtain ⟨e', hp1, _, _, hpos, hrot, hheld⟩ := pourStep_getElem _ k _ h2
  exact ⟨e', hp1, hheld, hpos, hrot⟩

/-- Frame-level hold persistence: while the holding side's hand is present
and pinching, the item stays held by that side through the whole frame. -/
lemma chemStep_keep (l r : Option HandData) (time : ℝ) (items : List Equipment)
    (k : Nat) (e : Equipment) (S : Handedness) (h : HandData)
    (he : items[k]? = some e) (hheld : e.heldBy = some S)
    (hh : handOf S l r = some h) (hp : h.isPinching) :
    ∃ e', (chemStep l r time items)[k]? = some e' ∧ e'.heldBy = some S := by
  obtain ⟨e', hstep, hhb, -, -⟩ := chemStep_elem l r time items k e he
  refine ⟨e', hstep, ?_⟩
  rw [hhb]
  cases S with
  | Left =>
    have hl : l = some h := hh
    subst hl
    have hLeft : (optInteract Handedness.Left (some h) time e).heldBy =
        some Handedness.Left := interactItem_keep _ _ _ _ hheld hp
    cases r with
    | none => exact hLeft
    | some hR =>
      show (interactItem Handedness.Right hR time _).heldBy = _
      rw [interactItem_other_side Handedness.Right hR time _ Handedness.Left hLeft
        (by rintro ⟨⟩)]
      exact hLeft
  | Right =>
    have hr : r = some h := hh
    subst hr
    have hLeft : (optInteract Handedness.Left l time e).heldBy =
        some Handedness.Right := by
      cases l with
      | none => exact hheld
      | some hL =>
        show (interactItem Handedness.Left hL time e).heldBy = _
        rw [interactItem_other_side Handedness.Left hL time e Handedness.Right hheld
          (by rintro ⟨⟩)]
        exact hheld
    exact interactItem_keep _ _ _ _ hLeft hp

/-- Frame-level release: the instant the holding side's hand is present
and reports no pinch, the item is no longer held by that side after the
frame (it may have been immediately re-grabbed by the *other* side, but
never kept by `S`). -/
lemma chemStep_release (l r : Option HandData) (time : ℝ) (items : List Equipment)
    (k : Nat) (e : Equipment) (S : Handedness) (h : HandData)
    (he : items[k]? = some e) (hheld : e.heldBy = some S)
    (hh : handOf S l r = some h) (hnp : ¬h.isPinching) :
    ∃ e', (chemStep l r time items)[k]? = some e' ∧ e'.heldBy ≠ some S := by
  obtain ⟨e', hstep, hhb, -, -⟩ := chemStep_elem l r time items k e he
  refine ⟨e', hstep, ?_⟩
  rw [hhb]
  cases S with
  | Left =>
    have hl : l = some h := hh
    subst hl
    have hLeft : (optInteract Handedness.Left (some h) time e).heldBy = none := by
      show (interactItem Handedness.Left h time e).heldBy = none
      rw [interactItem_release Handedness.Left h time e hheld hnp]
    cases r with
    | none =>
      show (optInteract Handedness.Left (some h) time e).heldBy ≠ some Handedness.Left
      rw [hLeft]
      exact Option.noConfusion
    | some hR =>
      intro hcontra
      have hcontra' : (interactItem Handedness.Right hR time
          (optInteract Handedness.Left (some h) time e)).heldBy =
            some Handedness.Left := hcontra
      rcases interactItem_heldBy_some Handedness.Right hR time _ Handedness.Left
        hcontra' with hc | ⟨hc, -, -⟩
      · rw [hLeft] at hc
        exact Option.noConfusion hc
      · exact Handedness.noConfusion hc
  | Right =>
    have hr : r = some h := hh
    subst hr
    have hLeft : (optInteract Handedness.Left l time e).heldBy =
        some Handedness.Right := by
      cases l with
      | none => exact hheld
      | some hL =>
        show (interactItem Handedness.Left hL time e).heldBy = _
        rw [interactItem_other_side Handedness.Left hL time e Handedness.Right hheld
          (by rintro ⟨⟩)]
        exact hheld
    show (interactItem Handedness.Right h time _).heldBy ≠ _
    rw [interactItem_release Handedness.Right h time _ hLeft hnp]
    exact Option.noConfusion

/-- Frame-level persistence under an absent hand: when the holding side's
hand is not detected, the item's `heldBy`, position and rotation survive
the frame unchanged. -/
lemma chemStep_absent (l r : Option HandData) (time : ℝ) (items : List Equipment)
    (k : Nat) (e : Equipment) (S : Handedness)
    (he : items[k]? = some e) (hheld : e.heldBy = some S)
    (habs : handOf S l r = none) :
    ∃ e', (chemStep l r time items)[k]? = some e' ∧ e'.heldBy = some S ∧
      e'.position = e.position ∧ e'.rotation = e.rotation := by
  obtain ⟨e', hstep, hhb, hpos, hrot⟩ := chemStep_elem l r time items k e he
  have hfix : (optInteract Handedness.Right r time
      (optInteract Handedness.Left l time e)) = e := by
    cases S with
    | Left =>
      have hl : l = none := habs
      subst hl
      cases r with
      | none => rfl
      | some hR =>
        show interactItem Handedness.Right hR time e = e
        exact interactItem_other_side Handedness.Right hR time e Handedness.Left hheld
          (by rintro ⟨⟩)
    | Right =>
      have hr : r = none := habs
      subst hr
      cases l with
      | none => rfl
      | some hL =>
        show interactItem Handedness.Left hL time e = e
        exact interactItem_other_side Handedness.Left hL time e Handedness.Right hheld
          (by rintro ⟨⟩)
  rw [hfix] at hhb hpos hrot
  exact ⟨e', hstep, hhb ▸ hheld, hpos, hrot⟩

/-- Invariant of the detection-assignment fold: the left slot only ever
holds a hand processed with the `Left` label, and symmetrically. -/
lemma assignHands_inv (prevL prevR : Option HandData) :
    ∀ (dets : List Detection) (acc : Option HandData × Option HandData),
      (∀ h, acc.1 = some h → h.handedness = Handedness.Left) →
      (∀ h, acc.2 = some h → h.handedness = Handedness.Right) →
      (∀ h, (dets.foldl
          (fun acc det =>
            let prevHand := if det.handedness = Handedness.Left then prevL else prevR
            let processed := processHand det.landmarks det.handedness prevHand
            if det.handedness = Handedness.Left then (some processed, acc.2)
            else (acc.1, some processed)) acc).1 = some h →
        h.handedness = Handedness.Left) ∧
      (∀ h, (dets.foldl
          (fun acc det =>
            let prevHand := if det.handedness = Handedness.Left then prevL else prevR
            let processed := processHand det.landmarks det.handedness prevHand
            if det.handedness = Handedness.Left then (some processed, acc.2)
            else (acc.1, some processed)) acc).2 = some h →
        h.handedness = Handedness.Right) := by
  intro dets
  induction dets with
  | nil => intro acc h1 h2; exact ⟨h1, h2⟩
  | cons d ds ih =>
    intro acc h1 h2
    rw [List.foldl_cons]
    refine ih _ ?_ ?_
    · intro h hh
      simp only [] at hh
      by_cases hd : d.handedness = Handedness.Left
      · rw [if_pos hd] at hh
        have hproc := Option.some_injective _ hh
        rw [← hproc]
        exact hd
      · rw [if_neg hd] at hh
        exact h1 h hh
    · intro h hh
      simp only [] at hh
      by_cases hd : d.handedness = Handedness.Left
      · rw [if_pos hd] at hh
        exact h2 h hh
      · rw [if_neg hd] at hh
        have hproc := Option.some_injective _ hh
        rw [← hproc]
        show d.handedness = Handedness.Right
        cases hd' : d.handedness
        · exact absurd hd' hd
        · rfl

/-- Frame-level grab evidence: after a chemistry frame, an item is held by
side `S` only if it already was before the frame, or `S`'s hand was
detected pinching within the item's capture radius (measured against the
item as `S`'s pass saw it). -/
lemma chemStep_heldBy_source (l r : Option HandData) (time : ℝ)
    (items : List Equipment) (k : Nat) (e e' : Equipment) (S : Handedness)
    (he : items[k]? = some e) (he' : (chemStep l r time items)[k]? = some e')
    (hS : e'.heldBy = some S) :
    e.heldBy = some S ∨
      ∃ h e₁, handOf S l r = some h ∧ h.isPinching ∧
        (sidePreState S l time items)[k]? = some e₁ ∧
        (handWorldPos h).distanceTo e₁.position < grabDistance e₁.type := by
  obtain ⟨e'', hstep, hhb, -, -⟩ := chemStep_elem l r time items k e he
  have heq : e' = e'' := Option.some_injective _ (he'.symm.trans hstep)
  rw [heq, hhb] at hS
  have hmidS : (optInteract Handedness.Left l time e).heldBy = some S ∨
      (S = Handedness.Right ∧
        ∃ h, r = some h ∧ h.isPinching ∧
          (handWorldPos h).distanceTo
              (optInteract Handedness.Left l time e).position <
            grabDistance (optInteract Handedness.Left l time e).type) := by
    cases r with
    | none => exact Or.inl hS
    | some hR =>
      have hS' : (interactItem Handedness.Right hR time
          (optInteract Handedness.Left l time e)).heldBy = some S := hS
      rcases interactItem_heldBy_some Handedness.Right hR time _ S hS' with hc | ⟨hc, hp, hd⟩
      · exact Or.inl hc
      · exact Or.inr ⟨hc, hR, rfl, hp, hd⟩
  rcases hmidS with hmid | ⟨rfl, h, hr, hp, hd⟩
  · cases l with
    | none => exact Or.inl hmid
    | some hL =>
      have hmid' : (interactItem Handedness.Left hL time e).heldBy = some S := hmid
      rcases interactItem_heldBy_some Handedness.Left hL time e S hmid' with hc | ⟨rfl, hp, hd⟩
      · exact Or.inl hc
      · exact Or.inr ⟨hL, e, rfl, hp, he, hd⟩
  · refine Or.inr ⟨h, optInteract Handedness.Left l time e, hr ▸ rfl, hp, ?_, hd⟩
    show (applyHand Handedness.Left l time items)[k]? = _
    exact applyHand_getElem Handedness.Left l time items k e he

/-- C3: in every frame the tracking state holds at most one hand per
label, each slot containing only a hand processed with that label; and in
the chemistry scene an object's `heldBy` is set to a side only while that
side's hand reports an active pinch within the object's capture radius,
and is no longer held by that side after any frame in which that hand is
detected and reports no pinch, regardless of the other hand. -/
theorem C3_tracking_and_hold_invariant :
    (∀ (dets : List Detection) (prev : TrackingState),
      (∀ h, (trackFrame dets prev).leftHand = some h →
        h.handedness = Handedness.Left) ∧
      (∀ h, (trackFrame dets prev).rightHand = some h →
        h.handedness = Handedness.Right)) ∧
    (∀ (l r : Option HandData) (time : ℝ) (items : List Equipment) (k : Nat)
      (e e' : Equipment) (S : Handedness),
      items[k]? = some e → (chemStep l r time items)[k]? = some e' →
      e'.heldBy = some S →
      e.heldBy = some S ∨
        ∃ h e₁, handOf S l r = some h ∧ h.isPinching ∧
          (sidePreState S l time items)[k]? = some e₁ ∧
          (handWorldPos h).distanceTo e₁.position < grabDistance e₁.type) ∧
    (∀ (l r : Option HandData) (time : ℝ) (items : List Equipment) (k : Nat)
      (e : Equipment) (S : Handedness) (h : HandData),
      items[k]? = some e → e.heldBy = some S → handOf S l r = some h →
      ¬h.isPinching →
      ∃ e', (chemStep l r time items)[k]? = some e' ∧ e'.heldBy ≠ some S) := by
  refine ⟨?_, ?_, ?_⟩
  · intro dets prev
    exact assignHands_inv prev.leftHand prev.rightHand dets (none, none)
      (fun h hh => Option.noConfusion hh) (fun h hh => Option.noConfusion hh)
  · intro l r time items k e e' S he he' hS
    exact chemStep_heldBy_source l r time items k e e' S he he' hS
  · intro l r time items k e S h he hheld hh hnp
    exact chemStep_release l r time items k e S h he hheld hh hnp

/-- Evaluate a 2D `Math.hypot` whose squared value is a perfect square. -/
lemma hypot2_eval (dx dy c : ℝ) (hc : 0 ≤ c) (h : dx ^ 2 + dy ^ 2 = c ^ 2) :
    hypot2 dx dy = c := by
  rw [hypot2, h, Real.sqrt_sq hc]

/-- Concrete landmarks for the C6 witness: wrist at the origin, the four
finger tips at height `0.4` above their PIP joints at `0.2`, thumb tip on
the index MCP at height `0.1` (thumb not extended, no pinch). -/
def wlmFour : Nat → Vec3 := fun i =>
  if i = 4 ∨ i = 5 then ⟨0, 0.1, 0⟩
  else if i = 6 ∨ i = 10 ∨ i = 14 ∨ i = 18 then ⟨0, 0.2, 0⟩
  else if i = 8 ∨ i = 12 ∨ i = 16 ∨ i = 20 then ⟨0, 0.4, 0⟩
  else ⟨0, 0, 0⟩

lemma wlmFour_count : countExtendedFingers wlmFour = 4 := by
  have h15 : hypot2 (0 : ℝ) (1 / 5) = 1 / 5 :=
    hypot2_eval _ _ _ (by norm_num) (by norm_num)
  have h25 : hypot2 (0 : ℝ) (2 / 5) = 2 / 5 :=
    hypot2_eval _ _ _ (by norm_num) (by norm_num)
  have h00 : hypot2 (0 : ℝ) 0 = 0 :=
    hypot2_eval _ _ _ (by norm_num) (by norm_num)
  unfold countExtendedFingers fingerPairs
  simp only [List.foldl_cons, List.foldl_nil, wlmFour]
  norm_num [h15, h25, h00]

lemma wlmFour_not_pinching : ¬(wlmFour 4).distanceTo (wlmFour 8) < PINCH_THRESHOLD := by
  have hd : (wlmFour 4).distanceTo (wlmFour 8) = 0.3 := by
    apply distanceTo_eval
    · norm_num
    · norm_num [wlmFour]
  rw [hd, PINCH_THRESHOLD]
  norm_num

/-- Witness for C6: the concrete four-fingers-up hand has finger count 4,
is not pinching, and is classified `four_fingers` by the lookup table. -/
theorem C6_gesture_classification_witness :
    (processHand wlmFour Handedness.Left none).extendedFingers = 4 ∧
    (processHand wlmFour Handedness.Left none).gestureType =
      GestureType.four_fingers := by
  have hext : (processHand wlmFour Handedness.Left none).extendedFingers = 4 :=
    wlmFour_count
  have hnp : ¬(processHand wlmFour Handedness.Left none).isPinching :=
    wlmFour_not_pinching
  exact ⟨hext,
    ((C6_gesture_classification wlmFour Handedness.Left none).2.2.2 hnp).2.2.2.1 hext⟩

/-- `tube1` as held in the pouring scenarios: grabbed by the left hand,
raised above `beaker1` and tilted `1.2` rad. -/
def tube1Held : Equipment :=
  { tube1 with
    heldBy := some Handedness.Left
    position := ⟨-2, 1.5, 2⟩
    rotation := ⟨0, 0, 1.2⟩ }

/-- A detected left hand that is not pinching. -/
def handOpenLeft : HandData := mkHand Handedness.Left False 0 ⟨0, 0, 0⟩ ⟨0, 0, 0⟩

/-- Witness for C3: a held test tube is released (no longer held by
`Left`) the frame its left hand is detected not pinching. -/
theorem C3_tracking_and_hold_invariant_witness :
    ∃ e', (chemStep (some handOpenLeft) none 0 [tube1Held])[0]? = some e' ∧
      e'.heldBy ≠ some Handedness.Left :=
  C3_tracking_and_hold_invariant.2.2 (some handOpenLeft) none 0 [tube1Held] 0
    tube1Held Handedness.Left handOpenLeft rfl rfl rfl not_false

/-- C10 (implicit): if the hand recorded in an object's `heldBy` is absent
from the current `TrackingState`, the chemistry frame leaves the object's
`heldBy`, position and rotation unchanged; `heldBy` stops being that side
only in a frame where that same hand is detected and reports no pinch —
so an object can stay marked as held indefinitely after its holding hand
leaves the camera's view. -/
theorem C10_held_survives_absent_hand (l r : Option HandData) (time : ℝ)
    (items : List Equipment) (k : Nat) (e : Equipment) (S : Handedness)
    (he : items[k]? = some e) (hheld : e.heldBy = some S) :
    (handOf S l r = none →
      ∃ e', (chemStep l r time items)[k]? = some e' ∧ e'.heldBy = some S ∧
        e'.position = e.position ∧ e'.rotation = e.rotation) ∧
    (∀ e', (chemStep l r time items)[k]? = some e' → e'.heldBy ≠ some S →
      ∃ h, handOf S l r = some h ∧ ¬h.isPinching) := by
  refine ⟨fun habs => chemStep_absent l r time items k e S he hheld habs, ?_⟩
  intro e' he' hne
  rcases hh : handOf S l r with _ | h
  · obtain ⟨e'', h1, h2, -, -⟩ := chemStep_absent l r time items k e S he hheld hh
    exact absurd (by
      rw [show e' = e'' from Option.some_injective _ (he'.symm.trans h1)]
      exact h2) hne
  · by_cases hp : h.isPinching
    · obtain ⟨e'', h1, h2⟩ := chemStep_keep l r time items k e S h he hheld hh hp
      exact absurd (by
        rw [show e' = e'' from Option.some_injective _ (he'.symm.trans h1)]
        exact h2) hne
    · exact ⟨h, rfl, hp⟩

/-- Witness for C10: with no hands detected, a held, tilted test tube
keeps its holder, position and rotation through the frame. -/
theorem C10_held_survives_absent_hand_witness :
    ∃ e', (chemStep none none 0 [tube1Held])[0]? = some e' ∧
      e'.heldBy = some Handedness.Left ∧ e'.position = tube1Held.position ∧
      e'.rotation = tube1Held.rotation :=
  (C10_held_survives_absent_hand none none 0 [tube1Held] 0 tube1Held
    Handedness.Left rfl rfl).1 rfl

/-! ## Pouring lemmas -/

/-- Blending a color toward itself is the identity. -/
lemma Color.lerp_self (c : Color) (alpha : ℝ) : c.lerp c alpha = c := by
  simp [Color.lerp, lerpR]

/-- One pour frame on an isolated source/target pair: the source (held,
non-empty, tilted beyond 1 rad, within 2.5 of the lower target) loses
exactly `0.015` (with no lower clamp) and the target gains `0.015`
clamped at `1`, its color replaced by the source color when its level is
at most `0.05` and blended toward it at rate `0.1` otherwise. -/
lemma pourStep_pair (src tgt : Equipment)
    (hheld : src.heldBy ≠ none) (hlev : 0 < src.liquidLevel)
    (htilt : 1 < |src.rotation.z|)
    (hdist : src.position.distanceTo tgt.position < 2.5)
    (hheight : tgt.position.y + 1 < src.position.y)
    (htgt : tgt.heldBy = none) :
    pourStep [src, tgt] =
      [{ src with liquidLevel := src.liquidLevel - 0.015 },
       { tgt with
         color := if tgt.liquidLevel ≤ 0.05 then src.color
                  else tgt.color.lerp src.color 0.1
         liquidLevel := min 1 (tgt.liquidLevel + 0.015) }] := by
  have hrange : List.range 2 = [0, 1] := by decide
  unfold pourStep pourTargets
  simp [hrange, hheld, hlev, htilt, hdist, hheight, htgt]

/-- C4 (amended): in a chemistry frame with a held source vessel (level
above `0`, tilt `|rotation.z| > 1` rad) and another vessel within distance
`2.5` and lower by more than `1`, the target gains `0.015` clamped at `1`
(a strict increase whenever the clamp is not hit), its color is replaced
by the source color when its level is at most `0.05` at transfer time and
otherwise blended toward it at rate `0.1` — but the source is decremented
by `0.015` *without* any clamp at `0` (its level may leave `[0, 1]`). -/
theorem C4_pour_frame_effect (src tgt : Equipment)
    (hheld : src.heldBy ≠ none) (hlev : 0 < src.liquidLevel)
    (htilt : 1 < |src.rotation.z|)
    (hdist : src.position.distanceTo tgt.position < 2.5)
    (hheight : tgt.position.y + 1 < src.position.y)
    (htgt : tgt.heldBy = none) :
    ∃ src' tgt', pourStep [src, tgt] = [src', tgt'] ∧
      src'.liquidLevel = src.liquidLevel - 0.015 ∧
      src'.liquidLevel < src.liquidLevel ∧
      tgt'.liquidLevel = min 1 (tgt.liquidLevel + 0.015) ∧
      (tgt.liquidLevel + 0.015 ≤ 1 →
        tgt'.liquidLevel = tgt.liquidLevel + 0.015 ∧
        tgt.liquidLevel < tgt'.liquidLevel) ∧
      tgt'.color = (if tgt.liquidLevel ≤ 0.05 then src.color
                    else tgt.color.lerp src.color 0.1) := by
  refine ⟨_, _, pourStep_pair src tgt hheld hlev htilt hdist hheight htgt,
    rfl, by norm_num, rfl, fun hc => ?_, rfl⟩
  have hm : min 1 (tgt.liquidLevel + 0.015) = tgt.liquidLevel + 0.015 :=
    min_eq_right hc
  constructor
  · exact hm
  · show tgt.liquidLevel < min 1 (tgt.liquidLevel + 0.015)
    rw [hm]
    norm_num

/-- A nearly empty held, tilted source vessel. -/
def pourSrcLow : Equipment := { tube1Held with liquidLevel := 0.01 }

/-- A receiving beaker with mid liquid level. -/
def pourTgtMid : Equipment := { beaker1 with liquidLevel := 0.5 }

lemma pourSrcLow_dist :
    pourSrcLow.position.distanceTo pourTgtMid.position < 2.5 := by
  have : pourSrcLow.position = ⟨-2, 1.5, 2⟩ := rfl
  rw [this, show pourTgtMid.position = ⟨-2, 0, 2⟩ from rfl]
  exact distanceTo_lt _ _ _ (by norm_num) (by norm_num)

/-- Counterexample for C4 as stated: the claim says both levels stay
within `[0, 1]` (source "clamped at 0"), but pouring from a source at
level `0.01` leaves the source at `-0.005 < 0` — the code subtracts
`0.015` with no lower clamp. -/
theorem C4_pour_counterexample :
    ∃ src', (pourStep [pourSrcLow, pourTgtMid])[0]? = some src' ∧
      src'.liquidLevel = (-0.005 : ℝ) ∧ src'.liquidLevel < 0 := by
  have hlev : pourSrcLow.liquidLevel = 0.01 := rfl
  have hrotz : pourSrcLow.rotation.z = 1.2 := rfl
  have h1 : pourSrcLow.heldBy ≠ none := by
    have hhb : pourSrcLow.heldBy = some Handedness.Left := rfl
    rw [hhb]
    exact Option.noConfusion
  have h2 : (0 : ℝ) < pourSrcLow.liquidLevel := by
    rw [hlev]
    norm_num
  have h3 : (1 : ℝ) < |pourSrcLow.rotation.z| := by
    rw [hrotz, abs_of_pos] <;> norm_num
  have h5 : pourTgtMid.position.y + 1 < pourSrcLow.position.y := by
    have ha : pourTgtMid.position.y = 0 := rfl
    have hb : pourSrcLow.position.y = 1.5 := rfl
    rw [ha, hb]
    norm_num
  rw [pourStep_pair pourSrcLow pourTgtMid h1 h2 h3 pourSrcLow_dist h5 rfl]
  refine ⟨_, rfl, ?_, ?_⟩
  · show pourSrcLow.liquidLevel - 0.015 = (-0.005 : ℝ)
    rw [hlev]
    norm_num
  · show pourSrcLow.liquidLevel - 0.015 < 0
    rw [hlev]
    norm_num

/-- Witness for C4 (amended): the full tube pouring into the half-full
beaker transfers exactly `0.015` in one frame, strictly increasing the
target and strictly decreasing the source. -/
theorem C4_pour_frame_effect_witness :
    ∃ src' tgt', pourStep [tube1Held, pourTgtMid] = [src', tgt'] ∧
      src'.liquidLevel = tube1Held.liquidLevel - 0.015 ∧
      src'.liquidLevel < tube1Held.liquidLevel ∧
      tgt'.liquidLevel = min 1 (pourTgtMid.liquidLevel + 0.015) ∧
      (pourTgtMid.liquidLevel + 0.015 ≤ 1 →
        tgt'.liquidLevel = pourTgtMid.liquidLevel + 0.015 ∧
        pourTgtMid.liquidLevel < tgt'.liquidLevel) ∧
      tgt'.color = (if pourTgtMid.liquidLevel ≤ 0.05 then tube1Held.color
                    else pourTgtMid.color.lerp tube1Held.color 0.1) := by
  have hlev : tube1Held.liquidLevel = 0.7 := rfl
  have hrotz : tube1Held.rotation.z = 1.2 := rfl
  have hposS : tube1Held.position = Vec3.mk (-2) 1.5 2 := rfl
  have hposT : pourTgtMid.position = Vec3.mk (-2) 0 2 := rfl
  have h1 : tube1Held.heldBy ≠ none := by
    have hhb : tube1Held.heldBy = some Handedness.Left := rfl
    rw [hhb]
    exact Option.noConfusion
  have h2 : (0 : ℝ) < tube1Held.liquidLevel := by
    rw [hlev]
    norm_num
  have h3 : (1 : ℝ) < |tube1Held.rotation.z| := by
    rw [hrotz, abs_of_pos] <;> norm_num
  have h4 : tube1Held.position.distanceTo pourTgtMid.position < 2.5 := by
    rw [hposS, hposT]
    exact distanceTo_lt _ _ _ (by norm_num) (by norm_num)
  have h5 : pourTgtMid.position.y + 1 < tube1Held.position.y := by
    rw [hposS, hposT]
    norm_num
  exact C4_pour_frame_effect tube1Held pourTgtMid h1 h2 h3 h4 h5 rfl

/-! ## The C5 end-to-end pouring scenario -/

/-- The chemistry state of the C5 scenario: `tube1` held, raised and
tilted over `beaker1` (cf. `tube1Held`), with symbolic liquid levels for
`tube1` (`tl`) and `beaker1` (`bl`, color `bc`); every other vessel is in
its initial state. -/
def c5State (tl bl : ℝ) (bc : Color) : List Equipment :=
  [{ tube1Held with liquidLevel := tl }, tube2, tube3, tube4, tube5, tube6,
   { beaker1 with liquidLevel := bl, color := bc }, beaker2]

/-- The C5 scenario run: the initial chemistry state with `tube1` held
above `beaker1`, iterated through chemistry frames in which no hand is
detected (the pinch that grabbed `tube1` persists by C10). -/
def c5Run : Nat → List Equipment
  | 0 => c5State 0.7 0 colorWhite
  | n + 1 => chemStep none none 0 (c5Run n)

lemma chemStep_noHands (time : ℝ) (items : List Equipment) :
    chemStep none none time items = pourStep items := rfl

/-- While `tube1` still has liquid, each frame moves `0.015` from it into
`beaker1` (the only vessel in range below it) and recolors `beaker1`. -/
lemma c5_pour_active (tl bl : ℝ) (bc : Color) (htl : 0 < tl)
    (hbl : bl + 0.015 ≤ 1) :
    pourStep (c5State tl bl bc) =
      c5State (tl - 0.015) (bl + 0.015)
        (if bl ≤ 0.05 then colorRed else bc.lerp colorRed 0.1) := by
  have hrange : List.range 8 = [0, 1, 2, 3, 4, 5, 6, 7] := by decide
  have hd1 : ¬Vec3.distanceTo ⟨-2, 1.5, 2⟩ ⟨-2.5, -1, 0⟩ < 2.5 :=
    not_distanceTo_lt _ _ _ (by norm_num) (by norm_num)
  have hd2 : ¬Vec3.distanceTo ⟨-2, 1.5, 2⟩ ⟨-1, -1, 0⟩ < 2.5 :=
    not_distanceTo_lt _ _ _ (by norm_num) (by norm_num)
  have hd3 : ¬Vec3.distanceTo ⟨-2, 1.5, 2⟩ ⟨0.5, -1, 0⟩ < 2.5 :=
    not_distanceTo_lt _ _ _ (by norm_num) (by norm_num)
  have hd4 : ¬Vec3.distanceTo ⟨-2, 1.5, 2⟩ ⟨2, -1, 0⟩ < 2.5 :=
    not_distanceTo_lt _ _ _ (by norm_num) (by norm_num)
  have hd5 : ¬Vec3.distanceTo ⟨-2, 1.5, 2⟩ ⟨3.5, -1, 0⟩ < 2.5 :=
    not_distanceTo_lt _ _ _ (by norm_num) (by norm_num)
  have hd6 : Vec3.distanceTo ⟨-2, 1.5, 2⟩ ⟨-2, 0, 2⟩ < 2.5 :=
    distanceTo_lt _ _ _ (by norm_num) (by norm_num)
  have hd7 : ¬Vec3.distanceTo ⟨-2, 1.5, 2⟩ ⟨2, 0, 2⟩ < 2.5 :=
    not_distanceTo_lt _ _ _ (by norm_num) (by norm_num)
  have habs : (1 : ℝ) < |(1.2 : ℝ)| := by
    rw [abs_of_pos] <;> norm_num
  have hmin : min 1 (bl + 0.015) = bl + 0.015 := min_eq_right hbl
  have h115 : (1 : ℝ) < 1.5 := by norm_num
  unfold pourStep pourTargets c5State
  simp [hrange, htl, habs, hd1, hd2, hd3, hd4, hd5, hd6, hd7, hmin, h115,
    tube1Held, tube1, tube2, tube3, tube4, tube5, tube6, beaker1, beaker2,
    colorRed, colorWhite]

/-- Once `tube1`'s level is no longer strictly positive, the pour stops
and the frame is the identity on the scenario state. -/
lemma c5_pour_inactive (tl bl : ℝ) (bc : Color) (htl : ¬0 < tl) :
    pourStep (c5State tl bl bc) = c5State tl bl bc := by
  have hrange : List.range 8 = [0, 1, 2, 3, 4, 5, 6, 7] := by decide
  unfold pourStep c5State
  simp [hrange, htl, tube1Held, tube1, tube2, tube3, tube4, tube5, tube6,
    beaker1, beaker2]

/-- Closed form of the C5 scenario run: pouring is active for exactly the
first 47 frames (the last of which drives `tube1` *below* zero), after
which the source level `0.7 - 0.015·47 = -0.005` fails the `> 0` guard
and the state is frozen. -/
lemma c5Run_closed (n : Nat) :
    c5Run n = c5State (0.7 - 0.015 * (min n 47 : ℕ)) (0.015 * (min n 47 : ℕ))
      (if n = 0 then colorWhite else colorRed) := by
  induction n with
  | zero =>
    show c5State 0.7 0 colorWhite = _
    norm_num
  | succ n ih =>
    show chemStep none none 0 (c5Run n) = _
    rw [chemStep_noHands, ih]
    by_cases h47 : n ≤ 46
    · have hmin : min n 47 = n := min_eq_left (by omega)
      have hmin' : min (n + 1) 47 = n + 1 := min_eq_left (by omega)
      rw [hmin, hmin']
      have hn46 : (n : ℝ) ≤ 46 := by exact_mod_cast h47
      have htl : (0 : ℝ) < 0.7 - 0.015 * n := by nlinarith
      have hbl : (0.015 : ℝ) * n + 0.015 ≤ 1 := by nlinarith
      rw [c5_pour_active _ _ _ htl hbl]
      have hA : (0.7 : ℝ) - 0.015 * n - 0.015 = 0.7 - 0.015 * ((n + 1 : ℕ) : ℝ) := by
        push_cast
        ring
      have hB : (0.015 : ℝ) * n + 0.015 = 0.015 * ((n + 1 : ℕ) : ℝ) := by
        push_cast
        ring
      rw [hA, hB]
      rcases Nat.eq_zero_or_pos n with hn0 | hn0
      · subst hn0
        norm_num
      · have h1 : (if n = 0 then colorWhite else colorRed) = colorRed :=
          if_neg (by omega)
        rw [h1, Color.lerp_self, ite_self, if_neg (Nat.succ_ne_zero n)]
    · have hmin : min n 47 = 47 := min_eq_right (by omega)
      have hmin' : min (n + 1) 47 = 47 := min_eq_right (by omega)
      rw [hmin, hmin']
      have htl : ¬(0 : ℝ) < 0.7 - 0.015 * (47 : ℕ) := by norm_num
      rw [c5_pour_inactive _ _ _ htl, if_neg (by omega : ¬n = 0),
        if_neg (Nat.succ_ne_zero n)]

/-- C5 (amended): in the scenario where `tube1` (initial level `0.7`) is
held, tilted beyond `1` rad and kept above `beaker1` (initial level `0`)
within distance `2.5` for `N` consecutive frames, `beaker1`'s level is
exactly `0.015·min(N,47)` (the cap at `1.0` is never reached), `beaker1`'s
color equals `tube1`'s color from the first transfer frame on, and
`tube1`'s level is `0.7 - 0.015·min(N,47)` — pouring continues through
frame 47, which leaves `tube1` at `-0.005` rather than flooring it at
`0`, and stops thereafter. -/
theorem C5_pour_scenario (n : ℕ) :
    ((c5Run n)[6]?).map Equipment.liquidLevel =
      some (0.015 * (min n 47 : ℕ) : ℝ) ∧
    ((c5Run n)[0]?).map Equipment.liquidLevel =
      some (0.7 - 0.015 * (min n 47 : ℕ) : ℝ) ∧
    (1 ≤ n → ((c5Run n)[6]?).map Equipment.color = some tube1.color) := by
  rw [c5Run_closed n]
  refine ⟨rfl, rfl, fun h1 => ?_⟩
  show some (if n = 0 then colorWhite else colorRed) = some tube1.color
  have hc : tube1.color = colorRed := rfl
  rw [if_neg (by omega : ¬n = 0), hc]

/-- Counterexample for C5 as stated: the claim says `tube1`'s level is
floored at `0`, predicting level `max 0 (0.7 - 0.015·47) = 0` after 47
frames; the code leaves it at `-0.005`. -/
theorem C5_pour_counterexample :
    ((c5Run 47)[0]?).map Equipment.liquidLevel = some (-0.005 : ℝ) ∧
    ((c5Run 47)[0]?).map Equipment.liquidLevel ≠
      some (max 0 (0.7 - 0.015 * 47) : ℝ) := by
  have h := (C5_pour_scenario 47).2.1
  have hval : (0.7 - 0.015 * ((min 47 47 : ℕ) : ℝ)) = (-0.005 : ℝ) := by
    norm_num
  rw [hval] at h
  refine ⟨h, ?_⟩
  rw [h]
  intro hc
  have := Option.some_injective _ hc
  norm_num at this

/-- Witness for C5 (amended): after two frames `beaker1` holds `0.03`,
`tube1` holds `0.67`, and `beaker1` has taken `tube1`'s color. -/
theorem C5_pour_scenario_witness :
    ((c5Run 2)[6]?).map Equipment.liquidLevel = some (0.03 : ℝ) ∧
    ((c5Run 2)[0]?).map Equipment.liquidLevel = some (0.67 : ℝ) ∧
    ((c5Run 2)[6]?).map Equipment.color = some tube1.color := by
  obtain ⟨h1, h2, h3⟩ := C5_pour_scenario 2
  refine ⟨?_, ?_, h3 (by norm_num)⟩
  · rw [h1]
    norm_num
  · rw [h2]
    norm_num

/-! ## C8: the grab/release state machine -/

/-- C8 (amended): an object held by side `S` stays held by `S` through
any frame in which `S`'s hand is detected and keeps pinching (the other
side's pinch is ignored while held, so the hold can never migrate to the
other side); and the release branch clears `heldBy` unconditionally and
applies exactly one snap-back adjustment: rotation reset to neutral,
height clamped from above to the table/rack level `-1.5`, and — only for
test tubes released above that height — the horizontal position pulled
halfway toward the nearest rack slot (flasks and low releases keep their
horizontal position). -/
theorem C8_grab_release_machine :
    (∀ (l r : Option HandData) (time : ℝ) (items : List Equipment) (k : Nat)
      (e : Equipment) (S : Handedness) (h : HandData),
      items[k]? = some e → e.heldBy = some S → handOf S l r = some h →
      h.isPinching →
      ∃ e', (chemStep l r time items)[k]? = some e' ∧ e'.heldBy = some S) ∧
    (∀ (side : Handedness) (hand : HandData) (time : ℝ) (item : Equipment),
      item.heldBy = some side → ¬hand.isPinching →
      (interactItem side hand time item).heldBy = none ∧
      (interactItem side hand time item).rotation = ⟨0, 0, 0⟩ ∧
      (interactItem side hand time item).position.y =
        min item.position.y (-1.5) ∧
      (interactItem side hand time item).position.z = item.position.z ∧
      (interactItem side hand time item).position.x =
        (if item.type = EquipType.TEST_TUBE ∧ -1.5 < item.position.y then
          (item.position.x + nearestRackSlot item.position.x) / 2
        else item.position.x) ∧
      (interactItem side hand time item).liquidLevel = item.liquidLevel ∧
      (interactItem side hand time item).color = item.color ∧
      (interactItem side hand time item).type = item.type) := by
  constructor
  · intro l r time items k e S h he hheld hh hp
    exact chemStep_keep l r time items k e S h he hheld hh hp
  · intro side hand time item hheld hnp
    rw [interactItem_release side hand time item hheld hnp]
    refine ⟨rfl, rfl, ?_, ?_, ?_, rfl, rfl, rfl⟩
    · by_cases ht : item.type = EquipType.TEST_TUBE <;>
        by_cases hy : (-1.5 : ℝ) < item.position.y
      · rw [if_pos ht, if_pos hy]
        exact (min_eq_right (le_of_lt hy)).symm
      · rw [if_pos ht, if_neg hy]
        exact (min_eq_left (not_lt.mp hy)).symm
      · rw [if_neg ht, if_pos hy]
        exact (min_eq_right (le_of_lt hy)).symm
      · rw [if_neg ht, if_neg hy]
        exact (min_eq_left (not_lt.mp hy)).symm
    · by_cases ht : item.type = EquipType.TEST_TUBE <;>
        by_cases hy : (-1.5 : ℝ) < item.position.y
      · rw [if_pos ht, if_pos hy]
      · rw [if_pos ht, if_neg hy]
      · rw [if_neg ht, if_pos hy]
      · rw [if_neg ht, if_neg hy]
    · by_cases ht : item.type = EquipType.TEST_TUBE <;>
        by_cases hy : (-1.5 : ℝ) < item.position.y
      · rw [if_pos ht, if_pos hy, if_pos (And.intro ht hy)]
        show lerpR item.position.x (nearestRackSlot item.position.x) 0.5 = _
        rw [lerpR]
        ring
      · rw [if_pos ht, if_neg hy, if_neg (fun hc => hy hc.2)]
      · rw [if_neg ht, if_pos hy, if_neg (fun hc => ht hc.1)]
      · rw [if_neg ht, if_neg hy, if_neg (fun hc => ht hc.1)]

/-- A flask parked far to the right (`x = 10`), held by the left hand. -/
def flaskFar : Equipment :=
  { beaker2 with
    position := ⟨10, 0, 0⟩
    heldBy := some Handedness.Left
    liquidLevel := 0 }

lemma pourStep_singleton_unheld (e : Equipment) (h : e.heldBy = none) :
    pourStep [e] = [e] := by
  have hrange : List.range 1 = [0] := by decide
  unfold pourStep
  simp [hrange, h]

/-- Counterexample for C8 as stated: the claim's snap-back includes
"horizontal position pulled toward the nearest fixed slot", but a
released FLASK keeps its horizontal position — after the release frame
this flask still sits at `x = 10` although its nearest rack slot is
`3.5`; only its height is clamped to `-1.5`. -/
theorem C8_release_counterexample :
    ∃ e', (chemStep (some handOpenLeft) none 0 [flaskFar])[0]? = some e' ∧
      e'.heldBy = none ∧ e'.position.x = 10 ∧ e'.position.y = (-1.5 : ℝ) ∧
      flaskFar.position.x = 10 ∧ nearestRackSlot 10 = 3.5 := by
  have hheld : flaskFar.heldBy = some Handedness.Left := rfl
  have hrel := interactItem_release Handedness.Left handOpenLeft 0 flaskFar
    hheld not_false
  have hty : ¬flaskFar.type = EquipType.TEST_TUBE := by
    have h : flaskFar.type = EquipType.FLASK := rfl
    rw [h]
    exact fun hc => EquipType.noConfusion hc
  have hy : (-1.5 : ℝ) < flaskFar.position.y := by
    have h : flaskFar.position.y = 0 := rfl
    rw [h]
    norm_num
  rw [if_neg hty, if_pos hy] at hrel
  have hstep : chemStep (some handOpenLeft) none 0 [flaskFar] =
      pourStep [interactItem Handedness.Left handOpenLeft 0 flaskFar] := rfl
  rw [hstep, hrel, pourStep_singleton_unheld _ rfl]
  refine ⟨_, rfl, rfl, rfl, rfl, rfl, ?_⟩
  have c1 : |(-2.5 : ℝ) - 10| < |(-4 : ℝ) - 10| := by
    rw [abs_of_neg, abs_of_neg] <;> norm_num
  have c2 : |(-1 : ℝ) - 10| < |(-2.5 : ℝ) - 10| := by
    rw [abs_of_neg, abs_of_neg] <;> norm_num
  have c3 : |(0.5 : ℝ) - 10| < |(-1 : ℝ) - 10| := by
    rw [abs_of_neg, abs_of_neg] <;> norm_num
  have c4 : |(2 : ℝ) - 10| < |(0.5 : ℝ) - 10| := by
    rw [abs_of_neg, abs_of_neg] <;> norm_num
  have c5 : |(3.5 : ℝ) - 10| < |(2 : ℝ) - 10| := by
    rw [abs_of_neg, abs_of_neg] <;> norm_num
  simp [nearestRackSlot, c1, c2, c3, c4, c5]

/-- Witness for C8 (amended): releasing the held test tube clears its
holder, resets its rotation, clamps its height and pulls it halfway
toward the nearest rack slot. -/
theorem C8_grab_release_machine_witness :
    (interactItem Handedness.Left handOpenLeft 0 tube1Held).heldBy = none ∧
    (interactItem Handedness.Left handOpenLeft 0 tube1Held).rotation = ⟨0, 0, 0⟩ ∧
    (interactItem Handedness.Left handOpenLeft 0 tube1Held).position.y =
      min tube1Held.position.y (-1.5) ∧
    (interactItem Handedness.Left handOpenLeft 0 tube1Held).position.z =
      tube1Held.position.z ∧
    (interactItem Handedness.Left handOpenLeft 0 tube1Held).position.x =
      (if tube1Held.type = EquipType.TEST_TUBE ∧ -1.5 < tube1Held.position.y then
        (tube1Held.position.x + nearestRackSlot tube1Held.position.x) / 2
      else tube1Held.position.x) ∧
    (interactItem Handedness.Left handOpenLeft 0 tube1Held).liquidLevel =
      tube1Held.liquidLevel ∧
    (interactItem Handedness.Left handOpenLeft 0 tube1Held).color =
      tube1Held.color ∧
    (interactItem Handedness.Left handOpenLeft 0 tube1Held).type =
      tube1Held.type :=
  C8_grab_release_machine.2 Handedness.Left handOpenLeft 0 tube1Held rfl not_false

/-! ## C7: contractive temporal smoothing -/

lemma Quat.dot_add_smul (p q : Quat) (a b : ℝ) :
    p.dot (Quat.add (Quat.smul a p) (Quat.smul b q)) =
      a * p.normSq + b * p.dot q := by
  simp only [Quat.dot, Quat.add, Quat.smul, Quat.normSq]
  ring

lemma Quat.add_smul_dot (p q : Quat) (a b : ℝ) :
    (Quat.add (Quat.smul a p) (Quat.smul b q)).dot q =
      a * p.dot q + b * q.normSq := by
  simp only [Quat.dot, Quat.add, Quat.smul, Quat.normSq]
  ring

lemma Quat.normSq_add_smul (p q : Quat) (a b : ℝ) :
    (Quat.add (Quat.smul a p) (Quat.smul b q)).normSq =
      a ^ 2 * p.normSq + 2 * a * b * p.dot q + b ^ 2 * q.normSq := by
  simp only [Quat.dot, Quat.add, Quat.smul, Quat.normSq]
  ring

/-- The interpolation factor stays between the endpoints' distances. -/
lemma distanceTo_lerp (P R : Vec3) (s : ℝ) (hs0 : 0 ≤ s) (hs1 : s ≤ 1) :
    P.distanceTo (P.lerp R s) = s * P.distanceTo R ∧
    (P.lerp R s).distanceTo R = (1 - s) * P.distanceTo R := by
  constructor
  · rw [Vec3.distanceTo, Vec3.distanceTo]
    have harg : (P.x - (P.lerp R s).x) ^ 2 + (P.y - (P.lerp R s).y) ^ 2 +
        (P.z - (P.lerp R s).z) ^ 2 =
        s ^ 2 * ((P.x - R.x) ^ 2 + (P.y - R.y) ^ 2 + (P.z - R.z) ^ 2) := by
      simp only [Vec3.lerp, lerpR]
      ring
    rw [harg, Real.sqrt_mul (sq_nonneg s), Real.sqrt_sq hs0]
  · rw [Vec3.distanceTo, Vec3.distanceTo]
    have harg : ((P.lerp R s).x - R.x) ^ 2 + ((P.lerp R s).y - R.y) ^ 2 +
        ((P.lerp R s).z - R.z) ^ 2 =
        (1 - s) ^ 2 * ((P.x - R.x) ^ 2 + (P.y - R.y) ^ 2 + (P.z - R.z) ^ 2) := by
      simp only [Vec3.lerp, lerpR]
      ring
    rw [harg, Real.sqrt_mul (sq_nonneg (1 - s)), Real.sqrt_sq (by linarith)]

/-- C7: temporal smoothing is contractive.  For positions, the smoothed
value `lerpVector3 P R 0.15` is the point of the segment from `P` to `R`
at parameter `0.15`, at distance `0.15·|PR|` from `P` and `0.85·|PR|`
from `R` — never past `R` nor behind `P`.  For orientations, the smoothed
value `lerpQuaternion P R 0.15` (three.js slerp, modelled as standard
spherical interpolation) is a nonnegative combination of the two unit
quaternions of unit norm — a point of the great-circle arc between them —
whose angle to `P` is `0.15·θ` and to `R` is `0.85·θ`, both at most the
full angle `θ`. -/
theorem C7_smoothing_contractive :
    (∀ P R : Vec3,
      (∃ s, 0 ≤ s ∧ s ≤ 1 ∧
        lerpVector3 P R SMOOTHING_FACTOR =
          ⟨P.x + s * (R.x - P.x), P.y + s * (R.y - P.y), P.z + s * (R.z - P.z)⟩) ∧
      P.distanceTo (lerpVector3 P R SMOOTHING_FACTOR) =
        SMOOTHING_FACTOR * P.distanceTo R ∧
      (lerpVector3 P R SMOOTHING_FACTOR).distanceTo R =
        (1 - SMOOTHING_FACTOR) * P.distanceTo R ∧
      P.distanceTo (lerpVector3 P R SMOOTHING_FACTOR) ≤ P.distanceTo R ∧
      (lerpVector3 P R SMOOTHING_FACTOR).distanceTo R ≤ P.distanceTo R) ∧
    (∀ (q1 q2 : Quat) (θ : ℝ), q1.normSq = 1 → q2.normSq = 1 →
      q1.dot q2 = Real.cos θ → 0 < θ → θ < Real.pi →
      ∃ a b, 0 ≤ a ∧ 0 ≤ b ∧
        lerpQuaternion q1 q2 SMOOTHING_FACTOR =
          Quat.add (Quat.smul a q1) (Quat.smul b q2) ∧
        (lerpQuaternion q1 q2 SMOOTHING_FACTOR).normSq = 1 ∧
        q1.dot (lerpQuaternion q1 q2 SMOOTHING_FACTOR) =
          Real.cos (SMOOTHING_FACTOR * θ) ∧
        (lerpQuaternion q1 q2 SMOOTHING_FACTOR).dot q2 =
          Real.cos ((1 - SMOOTHING_FACTOR) * θ) ∧
        Real.cos θ ≤ q1.dot (lerpQuaternion q1 q2 SMOOTHING_FACTOR) ∧
        Real.cos θ ≤ (lerpQuaternion q1 q2 SMOOTHING_FACTOR).dot q2) := by
  have hsf0 : (0 : ℝ) ≤ SMOOTHING_FACTOR := by norm_num [SMOOTHING_FACTOR]
  have hsf1 : SMOOTHING_FACTOR ≤ 1 := by norm_num [SMOOTHING_FACTOR]
  constructor
  · intro P R
    obtain ⟨hd1, hd2⟩ := distanceTo_lerp P R SMOOTHING_FACTOR hsf0 hsf1
    have hd1' : P.distanceTo (lerpVector3 P R SMOOTHING_FACTOR) =
        SMOOTHING_FACTOR * P.distanceTo R := hd1
    have hd2' : (lerpVector3 P R SMOOTHING_FACTOR).distanceTo R =
        (1 - SMOOTHING_FACTOR) * P.distanceTo R := hd2
    have hdn : 0 ≤ P.distanceTo R := distanceTo_nonneg P R
    refine ⟨⟨SMOOTHING_FACTOR, hsf0, hsf1, ?_⟩, hd1', hd2', ?_, ?_⟩
    · show P.lerp R SMOOTHING_FACTOR = _
      simp only [Vec3.lerp, lerpR, Vec3.mk.injEq]
      refine ⟨by ring, by ring, by ring⟩
    · rw [hd1']
      nlinarith
    · rw [hd2']
      nlinarith
  · intro q1 q2 θ hn1 hn2 hdot hθ0 hθπ
    have hsinθ : 0 < Real.sin θ := Real.sin_pos_of_pos_of_lt_pi hθ0 hθπ
    have hsne : Real.sin θ ≠ 0 := ne_of_gt hsinθ
    have harc : Real.arccos (q1.dot q2) = θ := by
      rw [hdot]
      exact Real.arccos_cos (le_of_lt hθ0) (le_of_lt hθπ)
    set t := SMOOTHING_FACTOR with ht
    have ht0 : (0 : ℝ) ≤ t := hsf0
    have ht1 : t ≤ 1 := hsf1
    have htθ0 : 0 ≤ t * θ := mul_nonneg ht0 (le_of_lt hθ0)
    have htθπ : t * θ ≤ θ := by nlinarith
    have hsθ0 : 0 ≤ (1 - t) * θ := mul_nonneg (by linarith) (le_of_lt hθ0)
    have hsθπ : (1 - t) * θ ≤ θ := by nlinarith
    have hθπ' : θ ≤ Real.pi := le_of_lt hθπ
    have hslerp : lerpQuaternion q1 q2 t =
        Quat.add (Quat.smul (Real.sin ((1 - t) * θ) / Real.sin θ) q1)
          (Quat.smul (Real.sin (t * θ) / Real.sin θ) q2) := by
      show q1.slerp q2 t = _
      simp only [Quat.slerp]
      rw [harc, if_neg hsne]
    have key1 : Real.sin ((1 - t) * θ) =
        Real.sin θ * Real.cos (t * θ) - Real.cos θ * Real.sin (t * θ) := by
      have h : (1 - t) * θ = θ - t * θ := by ring
      rw [h, Real.sin_sub]
    have key2 : Real.sin (t * θ) =
        Real.sin θ * Real.cos ((1 - t) * θ) -
          Real.cos θ * Real.sin ((1 - t) * θ) := by
      have h : t * θ = θ - (1 - t) * θ := by ring
      rw [h, Real.sin_sub]
    have hdotP : q1.dot (lerpQuaternion q1 q2 t) = Real.cos (t * θ) := by
      rw [hslerp, Quat.dot_add_smul, hn1, hdot]
      field_simp
      linear_combination key1
    have hdotR : (lerpQuaternion q1 q2 t).dot q2 = Real.cos ((1 - t) * θ) := by
      rw [hslerp, Quat.add_smul_dot, hn2, hdot]
      field_simp
      linear_combination key2
    have hdivision : ∀ u v s c : ℝ, s ≠ 0 → u ^ 2 + 2 * u * v * c + v ^ 2 = s ^ 2 →
        (u / s) ^ 2 * 1 + 2 * (u / s) * (v / s) * c + (v / s) ^ 2 * 1 = 1 := by
      intro u v s c hs h
      have hrw : (u / s) ^ 2 * 1 + 2 * (u / s) * (v / s) * c + (v / s) ^ 2 * 1 =
          (u ^ 2 + 2 * u * v * c + v ^ 2) / s ^ 2 := by
        field_simp
        ring
      rw [hrw, h, div_self (pow_ne_zero 2 hs)]
    have hnorm : (lerpQuaternion q1 q2 t).normSq = 1 := by
      rw [hslerp, Quat.normSq_add_smul, hn1, hn2, hdot]
      have hp1 := Real.sin_sq_add_cos_sq θ
      have hp2 := Real.sin_sq_add_cos_sq (t * θ)
      have hkey3 : Real.sin ((1 - t) * θ) ^ 2 +
          2 * Real.sin ((1 - t) * θ) * Real.sin (t * θ) * Real.cos θ +
          Real.sin (t * θ) ^ 2 = Real.sin θ ^ 2 := by
        linear_combination (Real.sin ((1 - t) * θ) + Real.sin θ * Real.cos (t * θ) -
          Real.cos θ * Real.sin (t * θ) + 2 * Real.sin (t * θ) * Real.cos θ) * key1 +
          Real.sin θ ^ 2 * hp2 - Real.sin (t * θ) ^ 2 * hp1
      exact hdivision _ _ _ _ hsne hkey3
    refine ⟨Real.sin ((1 - t) * θ) / Real.sin θ, Real.sin (t * θ) / Real.sin θ,
      div_nonneg (Real.sin_nonneg_of_nonneg_of_le_pi hsθ0 (le_trans hsθπ hθπ'))
        (le_of_lt hsinθ),
      div_nonneg (Real.sin_nonneg_of_nonneg_of_le_pi htθ0 (le_trans htθπ hθπ'))
        (le_of_lt hsinθ),
      hslerp, hnorm, hdotP, hdotR, ?_, ?_⟩
    · rw [hdotP]
      exact Real.cos_le_cos_of_nonneg_of_le_pi htθ0 hθπ' htθπ
    · rw [hdotR]
      exact Real.cos_le_cos_of_nonneg_of_le_pi hsθ0 hθπ' hsθπ

/-- Witness for C7: a concrete segment (`0.15` of the way from the origin
toward `(1,0,0)`) and a concrete quarter-turn pair of unit quaternions
(`θ = π/2`). -/
theorem C7_smoothing_contractive_witness :
    Vec3.distanceTo ⟨0, 0, 0⟩
        (lerpVector3 ⟨0, 0, 0⟩ ⟨1, 0, 0⟩ SMOOTHING_FACTOR) =
      SMOOTHING_FACTOR * Vec3.distanceTo ⟨0, 0, 0⟩ ⟨1, 0, 0⟩ ∧
    (∃ a b, 0 ≤ a ∧ 0 ≤ b ∧
      lerpQuaternion ⟨0, 0, 0, 1⟩ ⟨1, 0, 0, 0⟩ SMOOTHING_FACTOR =
        Quat.add (Quat.smul a ⟨0, 0, 0, 1⟩) (Quat.smul b ⟨1, 0, 0, 0⟩) ∧
      (lerpQuaternion ⟨0, 0, 0, 1⟩ ⟨1, 0, 0, 0⟩ SMOOTHING_FACTOR).normSq = 1 ∧
      Quat.dot ⟨0, 0, 0, 1⟩
          (lerpQuaternion ⟨0, 0, 0, 1⟩ ⟨1, 0, 0, 0⟩ SMOOTHING_FACTOR) =
        Real.cos (SMOOTHING_FACTOR * (Real.pi / 2)) ∧
      (lerpQuaternion ⟨0, 0, 0, 1⟩ ⟨1, 0, 0, 0⟩ SMOOTHING_FACTOR).dot
          ⟨1, 0, 0, 0⟩ =
        Real.cos ((1 - SMOOTHING_FACTOR) * (Real.pi / 2)) ∧
      Real.cos (Real.pi / 2) ≤
        Quat.dot ⟨0, 0, 0, 1⟩
          (lerpQuaternion ⟨0, 0, 0, 1⟩ ⟨1, 0, 0, 0⟩ SMOOTHING_FACTOR) ∧
      Real.cos (Real.pi / 2) ≤
        (lerpQuaternion ⟨0, 0, 0, 1⟩ ⟨1, 0, 0, 0⟩ SMOOTHING_FACTOR).dot
          ⟨1, 0, 0, 0⟩) := by
  constructor
  · exact (C7_smoothing_contractive.1 ⟨0, 0, 0⟩ ⟨1, 0, 0⟩).2.1
  · exact C7_smoothing_contractive.2 ⟨0, 0, 0, 1⟩ ⟨1, 0, 0, 0⟩ (Real.pi / 2)
      (by norm_num [Quat.normSq]) (by norm_num [Quat.normSq])
      (by rw [Real.cos_pi_div_two]; norm_num [Quat.dot])
      (by positivity) (by linarith [Real.pi_pos])

/-! ## C9: solar-system navigation and camera convergence -/

lemma idealRadius_four : idealRadius 4 = 10 := by
  have ht : Int.toNat 4 = 4 := rfl
  norm_num [idealRadius, PLANETS, ht, List.getElem_cons_succ,
    List.getElem_cons_zero]

lemma radiusStep_iterate (r0 : ℝ) (n : ℕ) :
    (radiusStep 4)^[n] r0 = 10 + (1 - 0.05) ^ n * (r0 - 10) := by
  induction n with
  | zero => simp
  | succ n ih =>
    rw [Function.iterate_succ_apply', ih, radiusStep, idealRadius_four, lerpR]
    ring

lemma lookAtStep_iterate (p look0 : Vec3) (n : ℕ) :
    ((lookAtStep p)^[n] look0).x = p.x + (1 - 0.05) ^ n * (look0.x - p.x) ∧
    ((lookAtStep p)^[n] look0).y = p.y + (1 - 0.05) ^ n * (look0.y - p.y) ∧
    ((lookAtStep p)^[n] look0).z = p.z + (1 - 0.05) ^ n * (look0.z - p.z) := by
  induction n with
  | zero => norm_num
  | succ n ih =>
    obtain ⟨ihx, ihy, ihz⟩ := ih
    rw [Function.iterate_succ_apply']
    refine ⟨?_, ?_, ?_⟩
    · show lerpR ((lookAtStep p)^[n] look0).x p.x 0.05 = _
      rw [ihx, lerpR]
      ring
    · show lerpR ((lookAtStep p)^[n] look0).y p.y 0.05 = _
      rw [ihy, lerpR]
      ring
    · show lerpR ((lookAtStep p)^[n] look0).z p.z 0.05 = _
      rw [ihz, lerpR]
      ring

lemma tendsto_affine_pow (L A c : ℝ) (h0 : 0 ≤ c) (h1 : c < 1) :
    Filter.Tendsto (fun n : ℕ => L + c ^ n * A) Filter.atTop (nhds L) := by
  have h := tendsto_pow_atTop_nhds_zero_of_lt_one h0 h1
  simpa using tendsto_const_nhds.add (h.mul_const A)

/-- C9: in the solar-system scene, a detected, non-pinching active hand
labelled `four_fingers` makes the target index `4` (Mars); the ideal
radius for that target is Mars' `size·5 + 5 = 10`, the camera radius
recurrence converges to it from any start, and the look-at recurrence
converges componentwise to the target planet position `p` (the orbital
position the transition chases, held fixed here as in the spec's
"after interpolation converges"). -/
theorem C9_solar_four_fingers_mars :
    (∀ (l r : Option HandData) (current : Int) (h : HandData),
      solarActiveHand l r = some h →
      h.gestureType = GestureType.four_fingers → ¬h.isPinching →
      updateTargetIndex l r current = 4) ∧
    idealRadius 4 = 10 ∧
    (∀ r0 : ℝ, Filter.Tendsto (fun n => (radiusStep 4)^[n] r0)
      Filter.atTop (nhds 10)) ∧
    (∀ (p look0 : Vec3),
      Filter.Tendsto (fun n => ((lookAtStep p)^[n] look0).x)
        Filter.atTop (nhds p.x) ∧
      Filter.Tendsto (fun n => ((lookAtStep p)^[n] look0).y)
        Filter.atTop (nhds p.y) ∧
      Filter.Tendsto (fun n => ((lookAtStep p)^[n] look0).z)
        Filter.atTop (nhds p.z)) := by
  refine ⟨?_, idealRadius_four, ?_, ?_⟩
  · intro l r current h hA hg hnp
    unfold updateTargetIndex
    rw [hA]
    simp only [if_neg hnp, hg]
    show (if (4 : Int) ≠ -1 ∧ (4 : Int) < (PLANETS.length : Int) ∧ (4 : Int) ≠ current
      then (4 : Int) else current) = 4
    by_cases hc : (4 : Int) = current
    · rw [if_neg]
      · exact hc.symm
      · rintro ⟨-, -, hcon⟩
        exact hcon hc
    · rw [if_pos ⟨by decide, by decide, hc⟩]
  · intro r0
    exact (tendsto_affine_pow 10 (r0 - 10) (1 - 0.05) (by norm_num)
      (by norm_num)).congr (fun n => (radiusStep_iterate r0 n).symm)
  · intro p look0
    refine ⟨?_, ?_, ?_⟩
    · exact (tendsto_affine_pow p.x (look0.x - p.x) (1 - 0.05) (by norm_num)
        (by norm_num)).congr (fun n => ((lookAtStep_iterate p look0 n).1).symm)
    · exact (tendsto_affine_pow p.y (look0.y - p.y) (1 - 0.05) (by norm_num)
        (by norm_num)).congr (fun n => ((lookAtStep_iterate p look0 n).2.1).symm)
    · exact (tendsto_affine_pow p.z (look0.z - p.z) (1 - 0.05) (by norm_num)
        (by norm_num)).congr (fun n => ((lookAtStep_iterate p look0 n).2.2).symm)

/-- A detected right hand showing four fingers, not pinching. -/
def handFourFingers : HandData :=
  { mkHand Handedness.Right False 0 ⟨0, 0, 0⟩ ⟨0, 0, 0⟩ with
    gestureType := GestureType.four_fingers }

/-- Witness for C9: the concrete four-fingers hand selects Mars from the
full view, and the camera radius converges to `10` from the initial
`60`. -/
theorem C9_solar_four_fingers_mars_witness :
    updateTargetIndex none (some handFourFingers) 0 = 4 ∧
    Filter.Tendsto (fun n => (radiusStep 4)^[n] (60 : ℝ))
      Filter.atTop (nhds 10) :=
  ⟨C9_solar_four_fingers_mars.1 none (some handFourFingers) 0 handFourFingers
      rfl rfl not_false,
    C9_solar_four_fingers_mars.2.2.1 60⟩

end

end VirtualLab

